import Mathlib

/-!
# Verification of the eDisco Pro Notes encrypted vault subsystem

Shallow embedding of the vault cryptography module
(`src/unnamed/part_003`, i.e. `crypto.cjs`) and of the
persistence / unlock / backup logic of the Electron main process
(`src/apps/desktop/electron/main.cjs`), together with proofs of the
specification claims about them.

Modelling conventions:
* A byte buffer is a `List Nat`; real bytes are the entries `< 256`.
* The Node `crypto` primitives (scrypt, HKDF, AES-256-GCM) are not part of
  the repository; they are modelled from the spec as ideal primitives:
  key derivation is an injective function of its inputs, and the AES-GCM
  authentication tag is a perfect MAC, an injective function of
  (key, iv, aad, ciphertext).  To keep the envelope byte layout (a
  16-entry tag field), the model stores the unbounded ideal MAC value in
  the first of the `TAG_LEN` entries of the tag field; this is the one
  place where an entry of a "byte" buffer exceeds 255, an unavoidable
  idealization (a genuinely collision-free 16-byte tag cannot exist).
* Randomness (the fresh nonce drawn by `crypto.randomBytes`) is threaded
  as an explicit `iv` argument of the sealing functions.
-/

namespace EdiscoNotes

/-- Base for the positional encoding of byte lists into `Nat`.
Chosen `> 2^32` so that every model byte (`< 256`), every Unicode code
point and every `uint32` KDF cost parameter is a single digit. -/
def encBase : Nat := 2 ^ 32 + 2

/-- Injective encoding of a digit list (all entries `< encBase`) into `Nat`.
The leading `1` makes lists of different lengths encode differently. -/
def encB (l : List Nat) : Nat := l.foldr (fun d a => a * encBase + d) 1

theorem encB_nil : encB [] = 1 := rfl

theorem encB_cons (d : Nat) (t : List Nat) :
    encB (d :: t) = encB t * encBase + d := rfl

theorem encB_pos (l : List Nat) : 1 ≤ encB l := by
  induction l with
  | nil => simp [encB_nil]
  | cons d t ih =>
      rw [encB_cons]
      have hb : (4294967298 : Nat) ≤ encB t * encBase := by
        have := Nat.mul_le_mul ih (Nat.le_refl encBase)
        simpa [encBase] using this
      omega

theorem encB_injOn (l₁ l₂ : List Nat)
    (h₁ : ∀ d ∈ l₁, d < encBase) (h₂ : ∀ d ∈ l₂, d < encBase)
    (heq : encB l₁ = encB l₂) : l₁ = l₂ := by
  induction l₁ generalizing l₂ with
  | nil =>
      cases l₂ with
      | nil => rfl
      | cons d t =>
          exfalso
          rw [encB_nil, encB_cons] at heq
          have ht := encB_pos t
          have : encBase ≤ encB t * encBase := Nat.le_mul_of_pos_left _ ht
          simp only [encBase] at this heq
          omega
  | cons d t ih =>
      cases l₂ with
      | nil =>
          exfalso
          rw [encB_nil, encB_cons] at heq
          have ht := encB_pos t
          have : encBase ≤ encB t * encBase := Nat.le_mul_of_pos_left _ ht
          simp only [encBase] at this heq
          omega
      | cons d' t' =>
          rw [encB_cons, encB_cons] at heq
          have hd : d < encBase := h₁ d (by simp)
          have hd' : d' < encBase := h₂ d' (by simp)
          have hmod : d = d' := by
            have := congrArg (fun n => n % encBase) heq
            simpa [Nat.mul_add_mod, Nat.mod_eq_of_lt hd, Nat.mod_eq_of_lt hd',
              Nat.add_mul_mod_self_left, Nat.add_comm] using this
          have hdiv : encB t = encB t' := by
            have := congrArg (fun n => n / encBase) heq
            have hbpos : 0 < encBase := by simp [encBase]
            simpa [Nat.mul_add_div hbpos, Nat.div_eq_of_lt hd,
              Nat.div_eq_of_lt hd', Nat.mul_div_cancel_left _ hbpos,
              Nat.add_mul_div_left, Nat.mul_comm] using this
          have := ih t' (fun x hx => h₁ x (List.mem_cons_of_mem _ hx))
            (fun x hx => h₂ x (List.mem_cons_of_mem _ hx)) hdiv
          rw [hmod, this]

/-! ## Unicode normalization (model of `String.prototype.normalize`)

`crypto.cjs` line 33 calls the JS built-in `passphrase.normalize("NFKC")`.
A passphrase is modelled as its list of Unicode code points. -/

/-- Modelled from the spec: the JS built-in `String.prototype.normalize` with
argument `"NFKC"` (compatibility decomposition followed by canonical
composition), restricted to the code points exercised in this development,
per the Unicode character database: U+FB01 LATIN SMALL LIGATURE FI has the
compatibility decomposition "fi" (U+0066 U+0069) and no canonical
decomposition; the sequence U+0065 U+0301 canonically composes to U+00E9. -/
def nfkcNormalize : List Nat → List Nat
  | [] => []
  | [c] => if c = 0xFB01 then [0x66, 0x69] else [c]
  | c₁ :: c₂ :: rest =>
      if c₁ = 0xFB01 then 0x66 :: 0x69 :: nfkcNormalize (c₂ :: rest)
      else if c₁ = 0x65 ∧ c₂ = 0x301 then 0xE9 :: nfkcNormalize rest
      else c₁ :: nfkcNormalize (c₂ :: rest)

/-- Modelled from the spec: the JS built-in `String.prototype.normalize` with
argument `"NFC"` (canonical decomposition followed by canonical composition,
the "Unicode canonical compose form" named by the spec), restricted to the
same code points: U+FB01 is NFC-invariant (no canonical decomposition),
while U+0065 U+0301 composes to U+00E9.  This is the spec-side definition
used to compare the spec's normalization sentence with the source's. -/
def nfcNormalize : List Nat → List Nat
  | [] => []
  | [c] => [c]
  | c₁ :: c₂ :: rest =>
      if c₁ = 0x65 ∧ c₂ = 0x301 then 0xE9 :: nfcNormalize rest
      else c₁ :: nfcNormalize (c₂ :: rest)

/-- `crypto.cjs` `normalizePassphrase`: normalizes the passphrase with NFKC
(the non-string guard of the source is subsumed by the typed embedding). -/
def normalizePassphrase (passphrase : List Nat) : List Nat :=
  nfkcNormalize passphrase

/-! ## Key derivation (`crypto.cjs` lines 21-63) -/

/-- scrypt cost parameters `{N, r, p}`. -/
structure ScryptParams where
  N : Nat
  r : Nat
  p : Nat
deriving DecidableEq

/-- `crypto.cjs` `DEFAULT_SCRYPT_PARAMS`. -/
def DEFAULT_SCRYPT_PARAMS : ScryptParams := ⟨32768, 8, 1⟩

def SALT_LEN : Nat := 16
def IV_LEN : Nat := 12
def TAG_LEN : Nat := 16

/-- Modelled from the spec: Node's `crypto.scryptSync` (the memory-hard KDF
named by the spec), idealized as a perfect KDF — an injective function of
(normalized passphrase, salt, cost parameters).  The derived key is an
unbounded `Nat` rather than 32 bytes; only its injectivity and determinism
are used. -/
def scryptSync (pass salt : List Nat) (params : ScryptParams) : Nat :=
  Nat.pair (encB pass)
    (Nat.pair (encB salt) (Nat.pair params.N (Nat.pair params.r params.p)))

/-- Modelled from the spec: Node's `crypto.hkdfSync("sha256", master, ∅,
info, 32)` used by `crypto.cjs` `hkdfSubkey`, idealized as an injective
function of (master key, context label). -/
def hkdfSubkey (masterKey : Nat) (info : List Nat) : Nat :=
  Nat.pair masterKey (encB info)

/-- The "edisconotes:db" context label, as UTF-8 code points. -/
def infoDb : List Nat := "edisconotes:db".data.map Char.toNat

/-- The "edisconotes:files" context label, as UTF-8 code points. -/
def infoFiles : List Nat := "edisconotes:files".data.map Char.toNat

/-- In-memory key material, as in `deriveKeysFromPassphrase`'s result. -/
structure Vault where
  masterKey : Nat
  dbKey : Nat
  fileKey : Nat
  kdfSalt : List Nat
  kdfParams : ScryptParams
deriving DecidableEq

/-- `crypto.cjs` `deriveKeysFromPassphrase`. -/
def deriveKeysFromPassphrase (passphrase salt : List Nat)
    (params : ScryptParams) : Vault :=
  let normalized := normalizePassphrase passphrase
  let masterKey := scryptSync normalized salt params
  { masterKey
    dbKey := hkdfSubkey masterKey infoDb
    fileKey := hkdfSubkey masterKey infoFiles
    kdfSalt := salt
    kdfParams := params }

/-! ## AES-256-GCM (model of Node's `createCipheriv`/`createDecipheriv`) -/

/-- Errors thrown by the codec and by decryption.  `authFailure` stands for
the Node AES-GCM error whose message matches /unable to authenticate data/. -/
inductive VaultError where
  | authFailure
  | dbTooSmall
  | dbBadMagic
  | dbBadVersion (v : Nat)
  | fileTooSmall
  | fileBadMagic
  | fileBadVersion (v : Nat)
deriving DecidableEq

/-- Modelled from the spec: the AES-CTR keystream byte at position `i` under
(key, iv).  Any fixed byte-valued function works; only `< 256` matters. -/
def ksByte (key : Nat) (iv : List Nat) (i : Nat) : Nat :=
  (Nat.pair key (encB iv) + i) % 256

/-- XOR of a buffer against the keystream starting at index `i`; applying it
twice restores the input. -/
def gcmStream (key : Nat) (iv : List Nat) : Nat → List Nat → List Nat
  | _, [] => []
  | i, b :: rest => (b ^^^ ksByte key iv i) :: gcmStream key iv (i + 1) rest

/-- Modelled from the spec: the GCM authentication tag, idealized as a
perfect MAC — an injective function of (key, iv, aad, ciphertext).  The
spec's AEAD glossary entry ("encryption that also detects tampering of both
ciphertext and specified header fields") is what this idealization encodes. -/
def mkTag (key : Nat) (iv aad ciphertext : List Nat) : Nat :=
  Nat.pair key (Nat.pair (encB iv) (Nat.pair (encB aad) (encB ciphertext)))

/-- Result of `aesGcmEncrypt`: `{ iv, tag, ciphertext }`. -/
structure GcmSealed where
  iv : List Nat
  tag : Nat
  ciphertext : List Nat
deriving DecidableEq

/-- `crypto.cjs` `aesGcmEncrypt`; the fresh random nonce drawn by
`crypto.randomBytes(IV_LEN)` is threaded as the explicit `iv` argument. -/
def aesGcmEncrypt (key : Nat) (iv : List Nat) (plaintext aad : List Nat) :
    GcmSealed :=
  let ciphertext := gcmStream key iv 0 plaintext
  { iv, tag := mkTag key iv aad ciphertext, ciphertext }

/-- `crypto.cjs` `aesGcmDecrypt`: recompute the tag over the received
(key, iv, aad, ciphertext); a mismatch is the Node auth failure. -/
def aesGcmDecrypt (key : Nat) (iv : List Nat) (tag : Nat)
    (ciphertext aad : List Nat) : Except VaultError (List Nat) :=
  if tag = mkTag key iv aad ciphertext then
    .ok (gcmStream key iv 0 ciphertext)
  else
    .error .authFailure

/-! ## Envelope codec (`crypto.cjs` lines 15-177) -/

/-- `"EDNENC01"` in ASCII. -/
def DB_MAGIC : List Nat := [0x45, 0x44, 0x4E, 0x45, 0x4E, 0x43, 0x30, 0x31]

def DB_VERSION : Nat := 1

/-- `"EDNFILE1"` in ASCII. -/
def FILE_MAGIC : List Nat := [0x45, 0x44, 0x4E, 0x46, 0x49, 0x4C, 0x45, 0x31]

def FILE_VERSION : Nat := 1

/-- `crypto.cjs` `u32`: big-endian 32-bit serialization
(`writeUInt32BE(value >>> 0)` wraps to 32 bits first). -/
def u32 (value : Nat) : List Nat :=
  let v := value % 2 ^ 32
  [v / 2 ^ 24 % 256, v / 2 ^ 16 % 256, v / 2 ^ 8 % 256, v % 256]

/-- Byte at index `i` of a buffer (out-of-range reads yield 0; the codec
only reads in range, guarded by its length check). -/
def byteAt (l : List Nat) (i : Nat) : Nat := l.getD i 0

/-- `crypto.cjs` `readU32`: `buf.readUInt32BE(offset)`. -/
def readU32 (buf : List Nat) (offset : Nat) : Nat :=
  byteAt buf offset * 2 ^ 24 + byteAt buf (offset + 1) * 2 ^ 16 +
    byteAt buf (offset + 2) * 2 ^ 8 + byteAt buf (offset + 3)

/-- Serialization of the model's ideal tag into the `TAG_LEN`-entry tag
field of an envelope: the unbounded MAC value sits in the first entry. -/
def tagBytes (t : Nat) : List Nat := t :: List.replicate (TAG_LEN - 1) 0

/-- Deserialization of the tag field. -/
def tagFromBytes (l : List Nat) : Nat := l.headD 0

/-- `crypto.cjs` `buildDbHeader`:
`magic(8) ++ version(1) ++ N,r,p (uint32be each) ++ salt ++ iv`. -/
def buildDbHeader (params : ScryptParams) (salt iv : List Nat) : List Nat :=
  DB_MAGIC ++ [DB_VERSION] ++ u32 params.N ++ u32 params.r ++ u32 params.p ++
    salt ++ iv

/-- `crypto.cjs` `sealDatabaseBytes`.  The source's null-guard on
`vault.dbKey/kdfSalt/kdfParams` is subsumed by the typed `Vault`; the fresh
random nonce is the explicit `iv` argument.  The AAD is the header with the
trailing `IV_LEN` entries removed, i.e. magic‖version‖params‖salt. -/
def sealDatabaseBytes (plaintext : List Nat) (vault : Vault)
    (iv : List Nat) : List Nat :=
  let header := buildDbHeader vault.kdfParams vault.kdfSalt
    (List.replicate IV_LEN 0)
  let aad := header.take (header.length - IV_LEN)
  let sealed := aesGcmEncrypt vault.dbKey iv plaintext aad
  let fullHeader := buildDbHeader vault.kdfParams vault.kdfSalt sealed.iv
  fullHeader ++ tagBytes sealed.tag ++ sealed.ciphertext

/-- Result of opening a database envelope: `{ plaintext, vault }`. -/
structure OpenedVault where
  plaintext : List Nat
  vault : Vault
deriving DecidableEq

/-- `crypto.cjs` `openVaultFromDatabaseEnvelope`: length, magic and version
checks, header field extraction, key re-derivation from the embedded
salt/params, and authenticated decryption with the reconstructed AAD. -/
def openVaultFromDatabaseEnvelope (envelopeBytes passphrase : List Nat) :
    Except VaultError OpenedVault :=
  let buf := envelopeBytes
  let minLen := DB_MAGIC.length + 1 + 12 + SALT_LEN + IV_LEN + TAG_LEN
  if buf.length < minLen then .error .dbTooSmall
  else if buf.take DB_MAGIC.length ≠ DB_MAGIC then .error .dbBadMagic
  else
    let version := byteAt buf DB_MAGIC.length
    if version ≠ DB_VERSION then .error (.dbBadVersion version)
    else
      let off0 := DB_MAGIC.length + 1
      let params : ScryptParams :=
        ⟨readU32 buf off0, readU32 buf (off0 + 4), readU32 buf (off0 + 8)⟩
      let off1 := off0 + 12
      let salt := (buf.drop off1).take SALT_LEN
      let off2 := off1 + SALT_LEN
      let iv := (buf.drop off2).take IV_LEN
      let off3 := off2 + IV_LEN
      let tag := tagFromBytes ((buf.drop off3).take TAG_LEN)
      let ciphertext := buf.drop (off3 + TAG_LEN)
      let vault := deriveKeysFromPassphrase passphrase salt params
      let aad := (buildDbHeader params salt (List.replicate IV_LEN 0)).take
        (DB_MAGIC.length + 1 + 12 + SALT_LEN)
      match aesGcmDecrypt vault.dbKey iv tag ciphertext aad with
      | .ok plaintext => .ok ⟨plaintext, vault⟩
      | .error e => .error e

/-- `crypto.cjs` `buildFileHeader`: `magic(8) ++ version(1) ++ iv`. -/
def buildFileHeader (iv : List Nat) : List Nat :=
  FILE_MAGIC ++ [FILE_VERSION] ++ iv

/-- `crypto.cjs` `sealFileBytes`.  AAD is the header minus the iv, i.e.
magic‖version.  Note the source concatenates `header ++ tag ++ ciphertext`:
the tag sits immediately after the header. -/
def sealFileBytes (plaintext : List Nat) (fileKey : Nat)
    (iv : List Nat) : List Nat :=
  let aadFull := buildFileHeader (List.replicate IV_LEN 0)
  let aad := aadFull.take (aadFull.length - IV_LEN)
  let sealed := aesGcmEncrypt fileKey iv plaintext aad
  let header := buildFileHeader sealed.iv
  header ++ tagBytes sealed.tag ++ sealed.ciphertext

/-- `crypto.cjs` `openFileBytes`: note `minLen` requires at least one
ciphertext byte (`… + TAG_LEN + 1`), and the tag is read immediately after
the header. -/
def openFileBytes (envelopeBytes : List Nat) (fileKey : Nat) :
    Except VaultError (List Nat) :=
  let buf := envelopeBytes
  let minLen := FILE_MAGIC.length + 1 + IV_LEN + TAG_LEN + 1
  if buf.length < minLen then .error .fileTooSmall
  else if buf.take FILE_MAGIC.length ≠ FILE_MAGIC then .error .fileBadMagic
  else
    let version := byteAt buf FILE_MAGIC.length
    if version ≠ FILE_VERSION then .error (.fileBadVersion version)
    else
      let off0 := FILE_MAGIC.length + 1
      let iv := (buf.drop off0).take IV_LEN
      let off1 := off0 + IV_LEN
      let tag := tagFromBytes ((buf.drop off1).take TAG_LEN)
      let ciphertext := buf.drop (off1 + TAG_LEN)
      let aad := (buildFileHeader (List.replicate IV_LEN 0)).take
        (FILE_MAGIC.length + 1)
      aesGcmDecrypt fileKey iv tag ciphertext aad

/-! ## Streaming attachment encryption (`main.cjs` lines 330-428) -/

/-- `main.cjs` `encryptAttachmentFile`, embedded as the byte content it
streams to disk: `header ++ ciphertext ++ tag` — the write stream emits the
header, pipes the cipher output, and appends the tag on `cipher.end`. -/
def encryptAttachmentFile (sourceBytes : List Nat) (fileKey : Nat)
    (iv : List Nat) : List Nat :=
  let header := FILE_MAGIC ++ [FILE_VERSION] ++ iv
  let aad := FILE_MAGIC ++ [FILE_VERSION]
  let sealed := aesGcmEncrypt fileKey iv sourceBytes aad
  header ++ sealed.ciphertext ++ tagBytes sealed.tag

/-- `main.cjs` `decryptAttachmentFile`: reads the iv from the header, the
tag from the final `TAG_LEN` bytes of the file, and the ciphertext from the
bytes in between. -/
def decryptAttachmentFile (encryptedBytes : List Nat) (fileKey : Nat) :
    Except VaultError (List Nat) :=
  let headerLen := FILE_MAGIC.length + 1 + IV_LEN
  if encryptedBytes.length < headerLen + TAG_LEN + 1 then .error .fileTooSmall
  else if encryptedBytes.take FILE_MAGIC.length ≠ FILE_MAGIC then
    .error .fileBadMagic
  else
    let version := byteAt encryptedBytes FILE_MAGIC.length
    if version ≠ FILE_VERSION then .error (.fileBadVersion version)
    else
      let iv := (encryptedBytes.drop (FILE_MAGIC.length + 1)).take IV_LEN
      let tag := tagFromBytes
        (encryptedBytes.drop (encryptedBytes.length - TAG_LEN))
      let aad := FILE_MAGIC ++ [FILE_VERSION]
      let ciphertext := (encryptedBytes.drop headerLen).take
        (encryptedBytes.length - TAG_LEN - headerLen)
      aesGcmDecrypt fileKey iv tag ciphertext aad

/-! ## Structural lemmas about the codec -/

/-- The AAD of the database envelope: magic‖version‖params‖salt. -/
def dbAad (params : ScryptParams) (salt : List Nat) : List Nat :=
  DB_MAGIC ++ [DB_VERSION] ++ u32 params.N ++ u32 params.r ++ u32 params.p ++
    salt

/-- The AAD of the codec's attachment envelope: magic‖version. -/
def fileAad : List Nat := FILE_MAGIC ++ [FILE_VERSION]

/-- The full database envelope shape used by both the sealer and the
tamper analysis. -/
def dbEnvelope (params : ScryptParams) (salt iv : List Nat) (tag : Nat)
    (ct : List Nat) : List Nat :=
  dbAad params salt ++ iv ++ tagBytes tag ++ ct

theorem buildDbHeader_eq (params : ScryptParams) (salt iv : List Nat) :
    buildDbHeader params salt iv = dbAad params salt ++ iv := by
  simp [buildDbHeader, dbAad, List.append_assoc]

theorem u32_length (v : Nat) : (u32 v).length = 4 := rfl

theorem dbAad_length (params : ScryptParams) (salt : List Nat) :
    (dbAad params salt).length = 21 + salt.length := by
  simp [dbAad, DB_MAGIC, u32]
  omega

theorem tagBytes_length (t : Nat) : (tagBytes t).length = 16 := by
  simp [tagBytes, TAG_LEN]

theorem tagFromBytes_tagBytes (t : Nat) : tagFromBytes (tagBytes t) = t := rfl

theorem gcmStream_length (key : Nat) (iv : List Nat) (i : Nat)
    (l : List Nat) : (gcmStream key iv i l).length = l.length := by
  induction l generalizing i with
  | nil => rfl
  | cons b rest ih => simp [gcmStream, ih]

theorem gcmStream_gcmStream (key : Nat) (iv : List Nat) (i : Nat)
    (l : List Nat) : gcmStream key iv i (gcmStream key iv i l) = l := by
  induction l generalizing i with
  | nil => rfl
  | cons b rest ih => simp [gcmStream, ih, Nat.xor_cancel_right]

theorem ksByte_lt (key : Nat) (iv : List Nat) (i : Nat) :
    ksByte key iv i < 256 := Nat.mod_lt _ (by omega)

theorem gcmStream_mem_lt (key : Nat) (iv : List Nat) (i : Nat)
    (l : List Nat) (h : ∀ b ∈ l, b < 256) :
    ∀ b ∈ gcmStream key iv i l, b < 256 := by
  induction l generalizing i with
  | nil => simp [gcmStream]
  | cons b rest ih =>
      intro x hx
      simp only [gcmStream, List.mem_cons] at hx
      rcases hx with h1 | h2
      · subst h1
        have hb : b < 2 ^ 8 := h b (by simp)
        have hk : ksByte key iv i < 2 ^ 8 := ksByte_lt key iv i
        exact Nat.xor_lt_two_pow hb hk
      · exact ih (i + 1) (fun y hy => h y (by simp [hy])) x h2

/-- `sealDatabaseBytes` in terms of the `dbEnvelope` shape. -/
theorem sealDatabaseBytes_eq (plaintext : List Nat) (vault : Vault)
    (iv : List Nat) :
    sealDatabaseBytes plaintext vault iv =
      dbEnvelope vault.kdfParams vault.kdfSalt iv
        (mkTag vault.dbKey iv (dbAad vault.kdfParams vault.kdfSalt)
          (gcmStream vault.dbKey iv 0 plaintext))
        (gcmStream vault.dbKey iv 0 plaintext) := by
  have htake :
      (dbAad vault.kdfParams vault.kdfSalt ++ List.replicate IV_LEN 0).take
        ((dbAad vault.kdfParams vault.kdfSalt ++
          List.replicate IV_LEN 0).length - IV_LEN) =
      dbAad vault.kdfParams vault.kdfSalt := by
    have hlen : (dbAad vault.kdfParams vault.kdfSalt ++
        List.replicate IV_LEN 0).length =
        (dbAad vault.kdfParams vault.kdfSalt).length + IV_LEN := by
      simp
    rw [hlen, Nat.add_sub_cancel]
    exact List.take_left' rfl
  simp only [sealDatabaseBytes, aesGcmEncrypt, dbEnvelope,
    buildDbHeader_eq, List.append_assoc, htake]

/-- Generic big-endian read of a `u32` serialized at offset `off`. -/
theorem readU32_at (pre rest : List Nat) (v off : Nat)
    (h : pre.length = off) :
    readU32 (pre ++ (u32 v ++ rest)) off = v % 2 ^ 32 := by
  subst h
  have hb : ∀ k, byteAt (pre ++ (u32 v ++ rest)) (pre.length + k) =
      (u32 v ++ rest).getD k 0 := by
    intro k
    unfold byteAt
    rw [List.getD_append_right _ _ _ _ (Nat.le_add_right _ _),
      Nat.add_sub_cancel_left]
  have h0 : byteAt (pre ++ (u32 v ++ rest)) pre.length =
      (u32 v ++ rest).getD 0 0 := by simpa using hb 0
  unfold readU32
  rw [h0, hb 1, hb 2, hb 3]
  simp only [u32, List.cons_append, List.getD_cons_zero, List.getD_cons_succ]
  omega

theorem dbEnvelope_length (params : ScryptParams) (salt iv ct : List Nat)
    (tag : Nat) (hsalt : salt.length = SALT_LEN) (hiv : iv.length = IV_LEN) :
    (dbEnvelope params salt iv tag ct).length = 65 + ct.length := by
  simp [dbEnvelope, dbAad_length, tagBytes_length, hsalt, SALT_LEN, hiv,
    IV_LEN]
  omega

/-- How `openVaultFromDatabaseEnvelope` evaluates on a well-formed
database envelope: every header field is recovered exactly, the keys are
re-derived from the embedded salt and params, and the result is that of
authenticated decryption under the magic‖version‖params‖salt AAD. -/
theorem openVault_dbEnvelope (params : ScryptParams)
    (salt iv ct pass : List Nat) (tag : Nat)
    (hsalt : salt.length = SALT_LEN) (hiv : iv.length = IV_LEN)
    (hN : params.N < 2 ^ 32) (hr : params.r < 2 ^ 32)
    (hp : params.p < 2 ^ 32) :
    openVaultFromDatabaseEnvelope (dbEnvelope params salt iv tag ct) pass =
      match aesGcmDecrypt (deriveKeysFromPassphrase pass salt params).dbKey
          iv tag ct (dbAad params salt) with
      | .ok plaintext =>
          .ok ⟨plaintext, deriveKeysFromPassphrase pass salt params⟩
      | .error e => .error e := by
  have hE9 : dbEnvelope params salt iv tag ct =
      (DB_MAGIC ++ [DB_VERSION]) ++ (u32 params.N ++ (u32 params.r ++
        (u32 params.p ++ (salt ++ (iv ++ (tagBytes tag ++ ct)))))) := by
    simp [dbEnvelope, dbAad, List.append_assoc]
  have hE13 : dbEnvelope params salt iv tag ct =
      (DB_MAGIC ++ [DB_VERSION] ++ u32 params.N) ++ (u32 params.r ++
        (u32 params.p ++ (salt ++ (iv ++ (tagBytes tag ++ ct))))) := by
    simp [dbEnvelope, dbAad, List.append_assoc]
  have hE17 : dbEnvelope params salt iv tag ct =
      (DB_MAGIC ++ [DB_VERSION] ++ u32 params.N ++ u32 params.r) ++
        (u32 params.p ++ (salt ++ (iv ++ (tagBytes tag ++ ct)))) := by
    simp [dbEnvelope, dbAad, List.append_assoc]
  have hE21 : dbEnvelope params salt iv tag ct =
      (DB_MAGIC ++ [DB_VERSION] ++ u32 params.N ++ u32 params.r ++
        u32 params.p) ++ (salt ++ (iv ++ (tagBytes tag ++ ct))) := by
    simp [dbEnvelope, dbAad, List.append_assoc]
  have hE37 : dbEnvelope params salt iv tag ct =
      (DB_MAGIC ++ [DB_VERSION] ++ u32 params.N ++ u32 params.r ++
        u32 params.p ++ salt) ++ (iv ++ (tagBytes tag ++ ct)) := by
    simp [dbEnvelope, dbAad, List.append_assoc]
  have hE49 : dbEnvelope params salt iv tag ct =
      (DB_MAGIC ++ [DB_VERSION] ++ u32 params.N ++ u32 params.r ++
        u32 params.p ++ salt ++ iv) ++ (tagBytes tag ++ ct) := by
    simp [dbEnvelope, dbAad, List.append_assoc]
  have hE65 : dbEnvelope params salt iv tag ct =
      (DB_MAGIC ++ [DB_VERSION] ++ u32 params.N ++ u32 params.r ++
        u32 params.p ++ salt ++ iv ++ tagBytes tag) ++ ct := by
    simp [dbEnvelope, dbAad, List.append_assoc]
  have hlen : (dbEnvelope params salt iv tag ct).length = 65 + ct.length :=
    dbEnvelope_length params salt iv ct tag hsalt hiv
  have hmagic : (dbEnvelope params salt iv tag ct).take 8 = DB_MAGIC := by
    rw [hE9, List.append_assoc]
    exact List.take_left' rfl
  have hver : byteAt (dbEnvelope params salt iv tag ct) 8 = DB_VERSION := by
    rw [hE9, List.append_assoc]
    unfold byteAt
    rw [List.getD_append_right _ _ _ _ (by norm_num [DB_MAGIC])]
    norm_num [DB_MAGIC]
  have hNr : readU32 (dbEnvelope params salt iv tag ct) 9 = params.N := by
    rw [hE9]
    have h := readU32_at (DB_MAGIC ++ [DB_VERSION])
      (u32 params.r ++ (u32 params.p ++ (salt ++ (iv ++
        (tagBytes tag ++ ct))))) params.N 9 rfl
    rw [h, Nat.mod_eq_of_lt hN]
  have hrr : readU32 (dbEnvelope params salt iv tag ct) 13 = params.r := by
    rw [hE13]
    have h := readU32_at (DB_MAGIC ++ [DB_VERSION] ++ u32 params.N)
      (u32 params.p ++ (salt ++ (iv ++ (tagBytes tag ++ ct))))
      params.r 13 rfl
    rw [h, Nat.mod_eq_of_lt hr]
  have hpr : readU32 (dbEnvelope params salt iv tag ct) 17 = params.p := by
    rw [hE17]
    have h := readU32_at
      (DB_MAGIC ++ [DB_VERSION] ++ u32 params.N ++ u32 params.r)
      (salt ++ (iv ++ (tagBytes tag ++ ct))) params.p 17 rfl
    rw [h, Nat.mod_eq_of_lt hp]
  have hpre21 : (DB_MAGIC ++ [DB_VERSION] ++ u32 params.N ++ u32 params.r ++
      u32 params.p).length = 21 := by simp [DB_MAGIC, u32]
  have hpre37 : (DB_MAGIC ++ [DB_VERSION] ++ u32 params.N ++ u32 params.r ++
      u32 params.p ++ salt).length = 37 := by
    simp [DB_MAGIC, u32, hsalt, SALT_LEN]
  have hpre49 : (DB_MAGIC ++ [DB_VERSION] ++ u32 params.N ++ u32 params.r ++
      u32 params.p ++ salt ++ iv).length = 49 := by
    simp [DB_MAGIC, u32, hsalt, SALT_LEN, hiv, IV_LEN]
  have hpre65 : (DB_MAGIC ++ [DB_VERSION] ++ u32 params.N ++ u32 params.r ++
      u32 params.p ++ salt ++ iv ++ tagBytes tag).length = 65 := by
    simp [DB_MAGIC, u32, hsalt, SALT_LEN, hiv, IV_LEN, tagBytes, TAG_LEN]
  have hsaltr : ((dbEnvelope params salt iv tag ct).drop 21).take 16 =
      salt := by
    rw [hE21, List.drop_left' hpre21,
      List.take_left' (by simpa [SALT_LEN] using hsalt)]
  have hivr : ((dbEnvelope params salt iv tag ct).drop 37).take 12 =
      iv := by
    rw [hE37, List.drop_left' hpre37,
      List.take_left' (by simpa [IV_LEN] using hiv)]
  have htagr : ((dbEnvelope params salt iv tag ct).drop 49).take 16 =
      tagBytes tag := by
    rw [hE49, List.drop_left' hpre49,
      List.take_left' (by simp [tagBytes, TAG_LEN])]
  have hctr : (dbEnvelope params salt iv tag ct).drop 65 = ct := by
    rw [hE65, List.drop_left' hpre65]
  have haad : (buildDbHeader params salt (List.replicate 12 0)).take 37 =
      dbAad params salt := by
    have h12 : (List.replicate 12 0 : List Nat) = List.replicate IV_LEN 0 :=
      rfl
    rw [h12, buildDbHeader_eq]
    exact List.take_left' (by rw [dbAad_length, hsalt]; rfl)
  have hml : DB_MAGIC.length = 8 := rfl
  simp only [openVaultFromDatabaseEnvelope, hml, SALT_LEN, IV_LEN, TAG_LEN,
    Nat.reduceAdd]
  rw [hlen, hmagic, hver, hNr, hrr, hpr, hsaltr, hivr, htagr, hctr,
    tagFromBytes_tagBytes]
  rw [if_neg (by omega), if_neg (by simp), if_neg (by simp [DB_VERSION])]
  rw [show (⟨params.N, params.r, params.p⟩ : ScryptParams) = params from rfl,
    haad]

/-- The full attachment envelope shape of the codec (`sealFileBytes`):
header, then tag, then ciphertext. -/
def fileEnvelope (iv : List Nat) (tag : Nat) (ct : List Nat) : List Nat :=
  fileAad ++ iv ++ tagBytes tag ++ ct

theorem buildFileHeader_eq (iv : List Nat) :
    buildFileHeader iv = fileAad ++ iv := by
  simp [buildFileHeader, fileAad, List.append_assoc]

/-- `sealFileBytes` in terms of the `fileEnvelope` shape. -/
theorem sealFileBytes_eq (plaintext : List Nat) (fileKey : Nat)
    (iv : List Nat) :
    sealFileBytes plaintext fileKey iv =
      fileEnvelope iv
        (mkTag fileKey iv fileAad (gcmStream fileKey iv 0 plaintext))
        (gcmStream fileKey iv 0 plaintext) := by
  have htake : (fileAad ++ List.replicate IV_LEN 0).take
      ((fileAad ++ List.replicate IV_LEN 0).length - IV_LEN) = fileAad := by
    have hlen : (fileAad ++ List.replicate IV_LEN 0).length =
        fileAad.length + IV_LEN := by simp
    rw [hlen, Nat.add_sub_cancel]
    exact List.take_left' rfl
  simp only [sealFileBytes, buildFileHeader_eq, htake, aesGcmEncrypt,
    fileEnvelope, List.append_assoc]

theorem fileEnvelope_length (iv : List Nat) (tag : Nat) (ct : List Nat)
    (hiv : iv.length = IV_LEN) :
    (fileEnvelope iv tag ct).length = 37 + ct.length := by
  simp [fileEnvelope, fileAad, FILE_MAGIC, tagBytes, TAG_LEN, hiv, IV_LEN]
  omega

/-- How `openFileBytes` evaluates on a well-formed, nonempty-ciphertext
attachment envelope of the codec's shape. -/
theorem openFileBytes_fileEnvelope (iv ct : List Nat) (tag : Nat)
    (fileKey : Nat) (hiv : iv.length = IV_LEN) (hct : ct ≠ []) :
    openFileBytes (fileEnvelope iv tag ct) fileKey =
      aesGcmDecrypt fileKey iv tag ct fileAad := by
  have hE9 : fileEnvelope iv tag ct =
      (FILE_MAGIC ++ [FILE_VERSION]) ++ (iv ++ (tagBytes tag ++ ct)) := by
    simp [fileEnvelope, fileAad, List.append_assoc]
  have hE21 : fileEnvelope iv tag ct =
      (FILE_MAGIC ++ [FILE_VERSION] ++ iv) ++ (tagBytes tag ++ ct) := by
    simp [fileEnvelope, fileAad, List.append_assoc]
  have hE37 : fileEnvelope iv tag ct =
      (FILE_MAGIC ++ [FILE_VERSION] ++ iv ++ tagBytes tag) ++ ct := by
    simp [fileEnvelope, fileAad, List.append_assoc]
  have hlen : (fileEnvelope iv tag ct).length = 37 + ct.length :=
    fileEnvelope_length iv tag ct hiv
  have hmagic : (fileEnvelope iv tag ct).take 8 = FILE_MAGIC := by
    rw [hE9, List.append_assoc]
    exact List.take_left' rfl
  have hver : byteAt (fileEnvelope iv tag ct) 8 = FILE_VERSION := by
    rw [hE9, List.append_assoc]
    unfold byteAt
    rw [List.getD_append_right _ _ _ _ (by norm_num [FILE_MAGIC])]
    norm_num [FILE_MAGIC]
  have hpre9 : (FILE_MAGIC ++ [FILE_VERSION]).length = 9 := rfl
  have hpre21 : (FILE_MAGIC ++ [FILE_VERSION] ++ iv).length = 21 := by
    simp [FILE_MAGIC, hiv, IV_LEN]
  have hpre37 : (FILE_MAGIC ++ [FILE_VERSION] ++ iv ++ tagBytes tag).length =
      37 := by
    simp [FILE_MAGIC, hiv, IV_LEN, tagBytes, TAG_LEN]
  have hivr : ((fileEnvelope iv tag ct).drop 9).take 12 = iv := by
    rw [hE9, List.drop_left' hpre9,
      List.take_left' (by simpa [IV_LEN] using hiv)]
  have htagr : ((fileEnvelope iv tag ct).drop 21).take 16 = tagBytes tag := by
    rw [hE21, List.drop_left' hpre21,
      List.take_left' (by simp [tagBytes, TAG_LEN])]
  have hctr : (fileEnvelope iv tag ct).drop 37 = ct := by
    rw [hE37, List.drop_left' hpre37]
  have haad : (buildFileHeader (List.replicate 12 0)).take 9 = fileAad := by
    have : buildFileHeader (List.replicate 12 0) =
        fileAad ++ List.replicate 12 0 := by
      simp [buildFileHeader, fileAad, List.append_assoc, IV_LEN]
    rw [this]
    exact List.take_left' rfl
  have hml : FILE_MAGIC.length = 8 := rfl
  simp only [openFileBytes, hml, IV_LEN, TAG_LEN, Nat.reduceAdd]
  rw [hlen, hmagic, hver, hivr, htagr, hctr, tagFromBytes_tagBytes]
  have hne : ct.length ≠ 0 := by
    intro h
    exact hct (List.eq_nil_of_length_eq_zero h)
  rw [if_neg (by omega), if_neg (by simp), if_neg (by simp [FILE_VERSION]),
    haad]

/-! ## Round-trip lemmas -/

/-- Seal/open round trip for the database envelope: sealing any plaintext
under keys derived from a passphrase and then opening with that passphrase
recovers the plaintext and the key material, for any well-formed salt/iv
and in-range cost parameters. -/
theorem dbRoundTrip (pass salt iv plaintext : List Nat)
    (params : ScryptParams)
    (hsalt : salt.length = SALT_LEN) (hiv : iv.length = IV_LEN)
    (hN : params.N < 2 ^ 32) (hr : params.r < 2 ^ 32)
    (hp : params.p < 2 ^ 32) :
    openVaultFromDatabaseEnvelope
      (sealDatabaseBytes plaintext (deriveKeysFromPassphrase pass salt params)
        iv) pass =
    .ok ⟨plaintext, deriveKeysFromPassphrase pass salt params⟩ := by
  have hkp : (deriveKeysFromPassphrase pass salt params).kdfParams =
      params := rfl
  have hks : (deriveKeysFromPassphrase pass salt params).kdfSalt = salt :=
    rfl
  rw [sealDatabaseBytes_eq, hkp, hks,
    openVault_dbEnvelope params salt iv _ pass _ hsalt hiv hN hr hp]
  simp [aesGcmDecrypt, gcmStream_gcmStream]

/-- Seal/open round trip for the codec's attachment envelope, for any
nonempty plaintext. -/
theorem fileRoundTrip (plaintext iv : List Nat) (fileKey : Nat)
    (hiv : iv.length = IV_LEN) (hpt : plaintext ≠ []) :
    openFileBytes (sealFileBytes plaintext fileKey iv) fileKey =
      .ok plaintext := by
  have hct : gcmStream fileKey iv 0 plaintext ≠ [] := by
    intro h
    have := gcmStream_length fileKey iv 0 plaintext
    rw [h] at this
    exact hpt (List.eq_nil_of_length_eq_zero this.symm)
  rw [sealFileBytes_eq, openFileBytes_fileEnvelope _ _ _ _ hiv hct]
  simp [aesGcmDecrypt, gcmStream_gcmStream]

/-! ## Normalization lemmas -/

theorem nfkc_cons_fb01 (l : List Nat) :
    nfkcNormalize (0xFB01 :: l) = 0x66 :: 0x69 :: nfkcNormalize l := by
  cases l with
  | nil => rfl
  | cons c₂ rest => simp [nfkcNormalize]

theorem nfkc_cons_ne (c₁ c₂ : Nat) (rest : List Nat) (h1 : c₁ ≠ 0xFB01)
    (h2 : ¬(c₁ = 0x65 ∧ c₂ = 0x301)) :
    nfkcNormalize (c₁ :: c₂ :: rest) = c₁ :: nfkcNormalize (c₂ :: rest) := by
  simp [nfkcNormalize, h1, h2]

theorem nfc_cons_pair (rest : List Nat) :
    nfcNormalize (0x65 :: 0x301 :: rest) = 0xE9 :: nfcNormalize rest := by
  simp [nfcNormalize]

theorem nfc_cons_ne (c₁ c₂ : Nat) (rest : List Nat)
    (h : ¬(c₁ = 0x65 ∧ c₂ = 0x301)) :
    nfcNormalize (c₁ :: c₂ :: rest) = c₁ :: nfcNormalize (c₂ :: rest) := by
  simp [nfcNormalize, h]

/-- The first element of `nfcNormalize (c :: r)` is `c` or the composed
U+00E9. -/
theorem nfc_cons_shape (c : Nat) (r : List Nat) :
    (∃ t, nfcNormalize (c :: r) = c :: t) ∨
    (∃ t, nfcNormalize (c :: r) = 0xE9 :: t) := by
  cases r with
  | nil => exact Or.inl ⟨[], rfl⟩
  | cons c₂ rest =>
      by_cases h : c = 0x65 ∧ c₂ = 0x301
      · obtain ⟨h1, h2⟩ := h
        subst h1
        subst h2
        exact Or.inr ⟨nfcNormalize rest, nfc_cons_pair rest⟩
      · exact Or.inl ⟨nfcNormalize (c₂ :: rest), nfc_cons_ne _ _ _ h⟩

/-- NFKC factors through NFC on the modelled code points: canonically
equivalent inputs have equal NFKC normalizations. -/
theorem nfkc_nfc (l : List Nat) :
    nfkcNormalize (nfcNormalize l) = nfkcNormalize l := by
  induction l using nfcNormalize.induct with
  | case1 => rfl
  | case2 c => rfl
  | case3 c₁ c₂ rest h ih =>
      obtain ⟨h1, h2⟩ := h
      subst h1
      subst h2
      rw [nfc_cons_pair]
      have hL : nfkcNormalize (0xE9 :: nfcNormalize rest) =
          0xE9 :: nfkcNormalize (nfcNormalize rest) := by
        cases hr : nfcNormalize rest with
        | nil => rfl
        | cons x xs => exact nfkc_cons_ne _ _ _ (by decide) (by simp)
      rw [hL, ih, show nfkcNormalize (0x65 :: 0x301 :: rest) =
        0xE9 :: nfkcNormalize rest from by simp [nfkcNormalize]]
  | case4 c₁ c₂ rest h ih =>
      rw [nfc_cons_ne _ _ _ h]
      by_cases hf : c₁ = 0xFB01
      · subst hf
        rw [nfkc_cons_fb01, ih, nfkc_cons_fb01]
      · rcases nfc_cons_shape c₂ rest with ⟨t, ht⟩ | ⟨t, ht⟩
        · rw [ht, nfkc_cons_ne c₁ c₂ t hf h, ← ht, ih,
            nfkc_cons_ne c₁ c₂ rest hf h]
        · rw [ht, nfkc_cons_ne c₁ 0xE9 t hf (by simp), ← ht, ih,
            nfkc_cons_ne c₁ c₂ rest hf h]

/-! ## Injectivity of the idealized key derivation and MAC -/

/-- The idealized scrypt is injective in (salt, params) for a fixed
normalized passphrase, as long as the salts are digit lists of the
encoding base (every real byte is). -/
theorem scryptSync_inj (pass salt salt' : List Nat)
    (params params' : ScryptParams)
    (hs : ∀ d ∈ salt, d < encBase) (hs' : ∀ d ∈ salt', d < encBase)
    (h : scryptSync pass salt params = scryptSync pass salt' params') :
    salt = salt' ∧ params = params' := by
  unfold scryptSync at h
  have h1 := Nat.pair_eq_pair.mp h
  have h2 := Nat.pair_eq_pair.mp h1.2
  have h3 := Nat.pair_eq_pair.mp h2.2
  have h4 := Nat.pair_eq_pair.mp h3.2
  refine ⟨encB_injOn _ _ hs hs' h2.1, ?_⟩
  cases params
  cases params'
  simp only [ScryptParams.mk.injEq]
  exact ⟨h3.1, h4.1, h4.2⟩

/-- Different (salt, params) give a different database subkey. -/
theorem dbKey_ne_of_ne (pass salt salt' : List Nat)
    (params params' : ScryptParams)
    (hs : ∀ d ∈ salt, d < encBase) (hs' : ∀ d ∈ salt', d < encBase)
    (hne : ¬(salt = salt' ∧ params = params')) :
    (deriveKeysFromPassphrase pass salt params).dbKey ≠
      (deriveKeysFromPassphrase pass salt' params').dbKey := by
  intro h
  simp only [deriveKeysFromPassphrase, hkdfSubkey] at h
  have hm := (Nat.pair_eq_pair.mp h).1
  exact hne (scryptSync_inj _ _ _ _ _ hs hs' hm)

/-- Tags under different keys are different (the ideal MAC is injective in
its key component). -/
theorem mkTag_ne_of_key_ne (key key' : Nat) (iv iv' aad aad' ct ct' : List Nat)
    (h : key ≠ key') : mkTag key iv aad ct ≠ mkTag key' iv' aad' ct' := by
  intro he
  exact h (Nat.pair_eq_pair.mp he).1

/-- Every 4-entry byte list is the big-endian serialization of a unique
`uint32` value. -/
theorem u32_exists (l : List Nat) (hl : l.length = 4)
    (hb : ∀ d ∈ l, d < 256) : ∃ v, v < 2 ^ 32 ∧ u32 v = l := by
  match l, hl with
  | [a, b, c, d], _ =>
    have ha := hb a (by simp)
    have hb' := hb b (by simp)
    have hc := hb c (by simp)
    have hd := hb d (by simp)
    refine ⟨a * 2 ^ 24 + b * 2 ^ 16 + c * 2 ^ 8 + d, by omega, ?_⟩
    simp only [u32, List.cons.injEq, and_true]
    omega

/-- Any list splits as its four slices at 4, 8 and 12. -/
theorem region_decomp (l : List Nat) :
    l = l.take 4 ++ ((l.drop 4).take 4 ++ ((l.drop 8).take 4 ++
      l.drop 12)) := by
  have h1 := (List.take_append_drop 4 l).symm
  have h2 := (List.take_append_drop 4 (l.drop 4)).symm
  have h3 := (List.take_append_drop 4 (l.drop 8)).symm
  have h4 : (l.drop 4).drop 4 = l.drop 8 := by
    rw [List.drop_drop]
  have h5 : (l.drop 8).drop 4 = l.drop 12 := by
    rw [List.drop_drop]
  calc l = l.take 4 ++ l.drop 4 := h1
    _ = l.take 4 ++ ((l.drop 4).take 4 ++ (l.drop 4).drop 4) := by rw [← h2]
    _ = l.take 4 ++ ((l.drop 4).take 4 ++ l.drop 8) := by rw [h4]
    _ = l.take 4 ++ ((l.drop 4).take 4 ++ ((l.drop 8).take 4 ++
        (l.drop 8).drop 4)) := by rw [← h3]
    _ = l.take 4 ++ ((l.drop 4).take 4 ++ ((l.drop 8).take 4 ++
        l.drop 12)) := by rw [h5]

/-! ## Concrete test values used by witnesses and counterexamples -/

/-- A concrete 24-character passphrase, as code points. -/
def cPass : List Nat := "correct-horse-battery-12".data.map Char.toNat

/-- The same passphrase with the last character changed. -/
def cPass2 : List Nat := "correct-horse-battery-13".data.map Char.toNat

/-- A concrete 16-byte salt. -/
def cSalt : List Nat := List.replicate 16 7

/-- A concrete 12-byte nonce. -/
def cIv : List Nat := List.replicate 12 3

/-- Concrete derived key material. -/
def cVault : Vault := deriveKeysFromPassphrase cPass cSalt DEFAULT_SCRYPT_PARAMS

/-! ## Claim C1 — seal/open round trip -/

/-- C1 (counterexample): the round trip fails for the empty buffer on the
attachment codec: `openFileBytes` requires at least one ciphertext byte, so
the envelope of the empty plaintext (37 bytes) is rejected as too small
rather than opened back to `[]`. -/
theorem claim_C1_counterexample :
    openFileBytes (sealFileBytes [] cVault.fileKey cIv) cVault.fileKey ≠
      Except.ok [] := by
  have h : openFileBytes (sealFileBytes [] cVault.fileKey cIv) cVault.fileKey
      = Except.error VaultError.fileTooSmall := rfl
  rw [h]
  intro hc
  exact Except.noConfusion hc

/-- C1 (amended): for every plaintext `b` and key material derived from a
passphrase (any well-formed salt/iv, in-range cost parameters), opening the
sealed database envelope returns exactly `b` together with the derived
vault; the attachment-codec round trip `openFileBytes ∘ sealFileBytes`
returns exactly `b` for every nonempty `b` (the empty buffer is rejected by
`openFileBytes`'s minimum-length check). -/
theorem claim_C1_roundtrip (pass salt iv b : List Nat) (params : ScryptParams)
    (hsalt : salt.length = SALT_LEN) (hiv : iv.length = IV_LEN)
    (hN : params.N < 2 ^ 32) (hr : params.r < 2 ^ 32)
    (hp : params.p < 2 ^ 32) :
    openVaultFromDatabaseEnvelope
        (sealDatabaseBytes b (deriveKeysFromPassphrase pass salt params) iv)
        pass =
      .ok ⟨b, deriveKeysFromPassphrase pass salt params⟩ ∧
    (b ≠ [] →
      openFileBytes
          (sealFileBytes b (deriveKeysFromPassphrase pass salt params).fileKey
            iv)
          (deriveKeysFromPassphrase pass salt params).fileKey = .ok b) :=
  ⟨dbRoundTrip pass salt iv b params hsalt hiv hN hr hp,
   fun hb => fileRoundTrip b iv _ hiv hb⟩

/-- C1 witness: the round trip at a concrete passphrase, salt, iv and
plaintext `[5, 6]`. -/
theorem claim_C1_roundtrip_witness :
    openVaultFromDatabaseEnvelope
        (sealDatabaseBytes [5, 6]
          (deriveKeysFromPassphrase cPass cSalt DEFAULT_SCRYPT_PARAMS) cIv)
        cPass =
      .ok ⟨[5, 6], deriveKeysFromPassphrase cPass cSalt DEFAULT_SCRYPT_PARAMS⟩ ∧
    (([5, 6] : List Nat) ≠ [] →
      openFileBytes
          (sealFileBytes [5, 6]
            (deriveKeysFromPassphrase cPass cSalt
              DEFAULT_SCRYPT_PARAMS).fileKey cIv)
          (deriveKeysFromPassphrase cPass cSalt
            DEFAULT_SCRYPT_PARAMS).fileKey = .ok [5, 6]) :=
  claim_C1_roundtrip cPass cSalt cIv [5, 6] DEFAULT_SCRYPT_PARAMS (by decide)
    (by decide) (by decide) (by decide) (by decide)

/-! ## The main process's vault files and unlock flow (`main.cjs`)

The four on-disk files the vault logic touches: the encrypted envelope
(`edisconotes.sqlite.enc`), its `.bak` sibling, the transient `.tmp` file of
the atomic persist, and the legacy plaintext database
(`edisconotes.sqlite`).  `none` = the file does not exist. -/

structure VaultDisk where
  encFile : Option (List Nat)
  bakFile : Option (List Nat)
  tmpFile : Option (List Nat)
  plainFile : Option (List Nat)
deriving DecidableEq

/-- `main.cjs` `MIN_PASSPHRASE_LEN`. -/
def MIN_PASSPHRASE_LEN : Nat := 12

/-- `main.cjs` `listEncryptedDbCandidates`: the envelope path first, then
the `.bak` fallback (only the current user-data root exists, per
`listUserDataRootsForUnlock`). -/
def listEncryptedDbCandidates (d : VaultDisk) : List (List Nat) :=
  (match d.encFile with | some b => [b] | none => []) ++
    (match d.bakFile with | some b => [b] | none => [])

/-- The candidate loop of `unlockVault` (`main.cjs` lines 1176-1185): try
each candidate in order, break on the first success, remember the error of
the last failed attempt. -/
def tryUnlockCandidates (pass : List Nat) :
    List (List Nat) → Option OpenedVault × Option VaultError
  | [] => (none, none)
  | c :: rest =>
      match openVaultFromDatabaseEnvelope c pass with
      | .ok o => (some o, none)
      | .error e =>
          match tryUnlockCandidates pass rest with
          | (some o, le) => (some o, le)
          | (none, some e') => (none, some e')
          | (none, none) => (none, some e)

/-- `main.cjs` `isDecryptAuthError`: the error message matches
/unable to authenticate data/, i.e. it is the GCM authentication failure. -/
def isDecryptAuthError (e : VaultError) : Bool := e = .authFailure

/-- The distinct errors `unlockVault` can throw. `unlockGeneric` is the
fixed message "Unable to unlock vault. The passphrase may be incorrect or
the encrypted database may be corrupted."; `openFailed e` is the rethrown
last candidate error; `verifyFailed` is "Encrypted database write
verification failed."  -/
inductive UnlockError where
  | passphraseTooShort
  | unlockGeneric
  | openFailed (e : VaultError)
  | noCandidateError
  | verifyFailed
deriving DecidableEq

/-- The single step functions of `persistDbInternal`'s atomic replace
(`main.cjs` lines 430-470): write the temp file; clear a stale `.bak`;
move the existing envelope aside to `.bak`; rename temp into place; delete
`.bak`. -/
def persistSteps (env : List Nat) : List (VaultDisk → VaultDisk) :=
  [fun d => { d with tmpFile := some env },
   fun d => { d with bakFile := none },
   fun d => match d.encFile with
     | some e => { d with encFile := none, bakFile := some e }
     | none => d,
   fun d => { d with encFile := d.tmpFile, tmpFile := none },
   fun d => { d with bakFile := none }]

/-- Run the first `k` steps (a crash after step `k` leaves this state). -/
def runSteps (fs : List (VaultDisk → VaultDisk)) (d : VaultDisk) : VaultDisk :=
  fs.foldl (fun s f => f s) d

/-- The completed persist (`persistDbInternal` run to the end). -/
def persistDbResult (env : List Nat) (d : VaultDisk) : VaultDisk :=
  runSteps (persistSteps env) d

theorem persistDbResult_eq (env : List Nat) (d : VaultDisk) :
    persistDbResult env d =
      { d with encFile := some env, bakFile := none, tmpFile := none } := by
  cases h : d.encFile with
  | none => simp [persistDbResult, runSteps, persistSteps, h]
  | some e => simp [persistDbResult, runSteps, persistSteps, h]

/-- Modelled from the spec: the byte export of a freshly created empty
sql.js database (first-run unlock with no legacy data); its exact contents
are irrelevant to every claim. -/
def emptyDbBytes : List Nat := []

/-- The data returned by a successful unlock. -/
structure UnlockSummary where
  migratedDb : Bool
  vault : Vault
  dbBytes : List Nat
deriving DecidableEq

/-- `main.cjs` `unlockVault` (lines 1152-1246), over the modelled disk.
Randomness is threaded: `freshSalt` is the `crypto.randomBytes(16)` of the
first-run branch, `persistIv` the nonce of the immediate reseal.
`readBack` models the `fs.readFileSync(dbEncPath())` of the write-verify
step: it is what the disk actually returns for the freshly written
envelope (the identity when the hardware is sound).  The subsequent
attachment re-encryption scan and audit record are not modelled: they touch
neither the three database files nor the thrown errors.  Returns the
result together with the final disk state. -/
def unlockVault (pass : List Nat) (disk : VaultDisk)
    (freshSalt persistIv : List Nat) (readBack : List Nat → List Nat) :
    Except UnlockError UnlockSummary × VaultDisk :=
  if pass.length < MIN_PASSPHRASE_LEN then (.error .passphraseTooShort, disk)
  else
    let cands := listEncryptedDbCandidates disk
    let phase1 : Except UnlockError (Vault × List Nat × Bool) :=
      if cands.isEmpty then
        let vault := deriveKeysFromPassphrase pass freshSalt
          DEFAULT_SCRYPT_PARAMS
        match disk.plainFile with
        | some plain => .ok (vault, plain, true)
        | none => .ok (vault, emptyDbBytes, false)
      else
        match tryUnlockCandidates pass cands with
        | (some o, _) => .ok (o.vault, o.plaintext, false)
        | (none, some e) =>
            if isDecryptAuthError e then .error .unlockGeneric
            else .error (.openFailed e)
        | (none, none) => .error .noCandidateError
    match phase1 with
    | .error e => (.error e, disk)
    | .ok (vault, dbData, migratedDb) =>
        let envelope := sealDatabaseBytes dbData vault persistIv
        let disk1 := persistDbResult envelope disk
        match openVaultFromDatabaseEnvelope (readBack envelope) pass with
        | .error _ => (.error .verifyFailed, disk1)
        | .ok _ =>
            let disk2 :=
              if migratedDb then { disk1 with plainFile := none } else disk1
            (.ok ⟨migratedDb, vault, dbData⟩, disk2)

/-! ## Claim C4 — AAD covers the header: tampering is rejected -/

/-- C4: the magic, version, cost-parameter and salt fields are covered by
the authentication tag as AAD.  First conjunct: `sealDatabaseBytes` lays
the envelope out with the params‖salt region in bytes 9–36 and tags the
ciphertext under the magic‖version‖params‖salt AAD.  Second conjunct:
replacing that 28-byte region with ANY other byte content (same length,
real bytes) — i.e. modifying any byte of the cost parameters or the salt —
yields an envelope that `openVaultFromDatabaseEnvelope` rejects with the
authentication error even under the original correct passphrase; it never
returns plaintext. -/
theorem claim_C4_aad_tamper (pass salt iv pt tampered : List Nat)
    (params : ScryptParams)
    (hsalt : salt.length = SALT_LEN) (hsaltB : ∀ d ∈ salt, d < 256)
    (hiv : iv.length = IV_LEN)
    (hN : params.N < 2 ^ 32) (hr : params.r < 2 ^ 32) (hp : params.p < 2 ^ 32)
    (hlen : tampered.length = 28) (hbytes : ∀ d ∈ tampered, d < 256)
    (hne : tampered ≠ u32 params.N ++ u32 params.r ++ u32 params.p ++ salt) :
    sealDatabaseBytes pt (deriveKeysFromPassphrase pass salt params) iv =
      DB_MAGIC ++ [DB_VERSION] ++
        (u32 params.N ++ u32 params.r ++ u32 params.p ++ salt) ++ iv ++
        tagBytes (mkTag (deriveKeysFromPassphrase pass salt params).dbKey iv
          (dbAad params salt)
          (gcmStream (deriveKeysFromPassphrase pass salt params).dbKey iv 0
            pt)) ++
        gcmStream (deriveKeysFromPassphrase pass salt params).dbKey iv 0 pt ∧
    openVaultFromDatabaseEnvelope
      (DB_MAGIC ++ [DB_VERSION] ++ tampered ++ iv ++
        tagBytes (mkTag (deriveKeysFromPassphrase pass salt params).dbKey iv
          (dbAad params salt)
          (gcmStream (deriveKeysFromPassphrase pass salt params).dbKey iv 0
            pt)) ++
        gcmStream (deriveKeysFromPassphrase pass salt params).dbKey iv 0 pt)
      pass = .error .authFailure := by
  have hkp : (deriveKeysFromPassphrase pass salt params).kdfParams =
      params := rfl
  have hks : (deriveKeysFromPassphrase pass salt params).kdfSalt = salt := rfl
  constructor
  · rw [sealDatabaseBytes_eq]
    simp [dbEnvelope, dbAad, hkp, hks, List.append_assoc]
  · obtain ⟨vN, hvN, hN4⟩ := u32_exists (tampered.take 4)
      (by simp [hlen]) (fun d hd => hbytes d (List.take_subset _ _ hd))
    obtain ⟨vr, hvr, hr4⟩ := u32_exists ((tampered.drop 4).take 4)
      (by simp [hlen])
      (fun d hd => hbytes d (List.drop_subset _ _ (List.take_subset _ _ hd)))
    obtain ⟨vp, hvp, hp4⟩ := u32_exists ((tampered.drop 8).take 4)
      (by simp [hlen])
      (fun d hd => hbytes d (List.drop_subset _ _ (List.take_subset _ _ hd)))
    have hsalt2 : (tampered.drop 12).length = SALT_LEN := by
      simp [hlen, SALT_LEN]
    have hre : tampered = u32 vN ++ (u32 vr ++ (u32 vp ++
        tampered.drop 12)) := by
      conv_lhs => rw [region_decomp tampered]
      rw [hN4, hr4, hp4]
    have henv : DB_MAGIC ++ [DB_VERSION] ++ tampered ++ iv ++
        tagBytes (mkTag (deriveKeysFromPassphrase pass salt params).dbKey iv
          (dbAad params salt)
          (gcmStream (deriveKeysFromPassphrase pass salt params).dbKey iv 0
            pt)) ++
        gcmStream (deriveKeysFromPassphrase pass salt params).dbKey iv 0 pt =
        dbEnvelope ⟨vN, vr, vp⟩ (tampered.drop 12) iv
          (mkTag (deriveKeysFromPassphrase pass salt params).dbKey iv
            (dbAad params salt)
            (gcmStream (deriveKeysFromPassphrase pass salt params).dbKey iv 0
              pt))
          (gcmStream (deriveKeysFromPassphrase pass salt params).dbKey iv 0
            pt) := by
      conv_lhs => rw [hre]
      simp [dbEnvelope, dbAad, List.append_assoc]
    rw [henv, openVault_dbEnvelope ⟨vN, vr, vp⟩ (tampered.drop 12) iv _ pass _
      hsalt2 hiv hvN hvr hvp]
    have hkne : (deriveKeysFromPassphrase pass salt params).dbKey ≠
        (deriveKeysFromPassphrase pass (tampered.drop 12)
          ⟨vN, vr, vp⟩).dbKey := by
      apply dbKey_ne_of_ne
      · exact fun d hd => lt_trans (hsaltB d hd) (by norm_num [encBase])
      · exact fun d hd =>
          lt_trans (hbytes d (List.drop_subset _ _ hd)) (by norm_num [encBase])
      · rintro ⟨hseq, hpeq⟩
        apply hne
        have h1 : params.N = vN := by rw [hpeq]
        have h2 : params.r = vr := by rw [hpeq]
        have h3 : params.p = vp := by rw [hpeq]
        rw [hre, h1, h2, h3, hseq]
        simp [List.append_assoc]
    have hdec : aesGcmDecrypt
        (deriveKeysFromPassphrase pass (tampered.drop 12)
          ⟨vN, vr, vp⟩).dbKey iv
        (mkTag (deriveKeysFromPassphrase pass salt params).dbKey iv
          (dbAad params salt)
          (gcmStream (deriveKeysFromPassphrase pass salt params).dbKey iv 0
            pt))
        (gcmStream (deriveKeysFromPassphrase pass salt params).dbKey iv 0 pt)
        (dbAad ⟨vN, vr, vp⟩ (tampered.drop 12)) = .error .authFailure := by
      unfold aesGcmDecrypt
      rw [if_neg]
      intro heq
      exact mkTag_ne_of_key_ne _ _ iv iv (dbAad params salt) _ _ _ hkne heq
    rw [hdec]

/-- A tampered params‖salt region for the C4 witness: the salt bytes are
changed from 7s to 8s while the cost parameters stay the default. -/
def c4Region : List Nat := u32 32768 ++ u32 8 ++ u32 1 ++ List.replicate 16 8

/-- The ciphertext of the concrete C4/C1 sealing. -/
def cCt : List Nat := gcmStream cVault.dbKey cIv 0 [1, 2, 3]

/-- The tag of the concrete C4 sealing. -/
def cTag : Nat :=
  mkTag cVault.dbKey cIv (dbAad DEFAULT_SCRYPT_PARAMS cSalt) cCt

/-- C4 witness: at a concrete passphrase/salt/iv/plaintext, the sealed
envelope has the stated layout, and the envelope with its salt bytes
changed from 7s to 8s is rejected with the authentication error under the
correct passphrase. -/
theorem claim_C4_aad_tamper_witness :
    sealDatabaseBytes [1, 2, 3] cVault cIv =
      DB_MAGIC ++ [DB_VERSION] ++ (u32 32768 ++ u32 8 ++ u32 1 ++ cSalt) ++
        cIv ++ tagBytes cTag ++ cCt ∧
    openVaultFromDatabaseEnvelope
      (DB_MAGIC ++ [DB_VERSION] ++ c4Region ++ cIv ++ tagBytes cTag ++ cCt)
      cPass = .error .authFailure :=
  claim_C4_aad_tamper cPass cSalt cIv [1, 2, 3] c4Region
    DEFAULT_SCRYPT_PARAMS (by decide) (by decide) (by decide) (by decide)
    (by decide) (by decide) (by decide) (by decide) (by decide)

/-! ## Claims C3 and C6 — unlock behavior -/

/-- NFKC normalization introduces only the code points 0x66, 0x69, 0xE9
besides the input's own, so it preserves the digit bound. -/
theorem nfkc_mem_lt (l : List Nat) (h : ∀ d ∈ l, d < encBase) :
    ∀ d ∈ nfkcNormalize l, d < encBase := by
  induction l using nfkcNormalize.induct with
  | case1 => simp [nfkcNormalize]
  | case2 =>
      intro d hd
      rw [show nfkcNormalize [0xFB01] = [0x66, 0x69] from by decide] at hd
      simp only [List.mem_cons, List.mem_singleton, List.not_mem_nil,
        or_false] at hd
      rcases hd with h1 | h1
      · subst h1; norm_num [encBase]
      · subst h1; norm_num [encBase]
  | case3 c hc =>
      intro d hd
      simp only [nfkcNormalize, if_neg hc, List.mem_singleton] at hd
      subst hd
      exact h d (by simp)
  | case4 c₂ rest ih =>
      intro d hd
      rw [nfkc_cons_fb01] at hd
      simp only [List.mem_cons] at hd
      rcases hd with h1 | h1 | h1
      · subst h1; norm_num [encBase]
      · subst h1; norm_num [encBase]
      · exact ih (fun x hx => h x (List.mem_cons_of_mem _ hx)) d h1
  | case5 c₁ c₂ rest hf hpair ih =>
      intro d hd
      obtain ⟨h1, h2⟩ := hpair
      subst h1
      subst h2
      rw [show nfkcNormalize (0x65 :: 0x301 :: rest) =
        0xE9 :: nfkcNormalize rest from by simp [nfkcNormalize]] at hd
      simp only [List.mem_cons] at hd
      rcases hd with h1 | h1
      · subst h1; norm_num [encBase]
      · exact ih (fun x hx =>
          h x (List.mem_cons_of_mem _ (List.mem_cons_of_mem _ hx))) d h1
  | case6 c₁ c₂ rest hf hpair ih =>
      intro d hd
      rw [nfkc_cons_ne c₁ c₂ rest hf hpair] at hd
      simp only [List.mem_cons] at hd
      rcases hd with h1 | h1
      · subst h1; exact h d (by simp)
      · exact ih (fun x hx => h x (List.mem_cons_of_mem _ hx)) d h1

/-- Different normalized passphrases give different database subkeys. -/
theorem dbKey_ne_of_pass_ne (p₁ p₂ salt : List Nat) (params : ScryptParams)
    (h₁ : ∀ d ∈ p₁, d < encBase) (h₂ : ∀ d ∈ p₂, d < encBase)
    (hne : nfkcNormalize p₁ ≠ nfkcNormalize p₂) :
    (deriveKeysFromPassphrase p₁ salt params).dbKey ≠
      (deriveKeysFromPassphrase p₂ salt params).dbKey := by
  intro h
  simp only [deriveKeysFromPassphrase, normalizePassphrase, hkdfSubkey] at h
  have hm := (Nat.pair_eq_pair.mp h).1
  unfold scryptSync at hm
  have hpp := (Nat.pair_eq_pair.mp hm).1
  exact hne (encB_injOn _ _ (nfkc_mem_lt _ h₁) (nfkc_mem_lt _ h₂) hpp)

/-- Tags over different ciphertexts (of bounded digits) are different. -/
theorem mkTag_ne_of_ct_ne (key : Nat) (iv aad ct ct' : List Nat)
    (hb : ∀ d ∈ ct, d < encBase) (hb' : ∀ d ∈ ct', d < encBase)
    (h : ct ≠ ct') : mkTag key iv aad ct ≠ mkTag key iv aad ct' := by
  intro he
  unfold mkTag at he
  have h1 := (Nat.pair_eq_pair.mp he).2
  have h2 := (Nat.pair_eq_pair.mp h1).2
  have h3 := (Nat.pair_eq_pair.mp h2).2
  exact h (encB_injOn _ _ hb hb' h3)

/-- A database envelope whose tag field disagrees with the ideal MAC of the
received components is rejected with the authentication failure. -/
theorem openVault_dbEnvelope_authFail (params : ScryptParams)
    (salt iv ct pass : List Nat) (tag : Nat)
    (hsalt : salt.length = SALT_LEN) (hiv : iv.length = IV_LEN)
    (hN : params.N < 2 ^ 32) (hr : params.r < 2 ^ 32) (hp : params.p < 2 ^ 32)
    (htag : tag ≠ mkTag (deriveKeysFromPassphrase pass salt params).dbKey iv
      (dbAad params salt) ct) :
    openVaultFromDatabaseEnvelope (dbEnvelope params salt iv tag ct) pass =
      .error .authFailure := by
  rw [openVault_dbEnvelope params salt iv ct pass tag hsalt hiv hN hr hp]
  unfold aesGcmDecrypt
  rw [if_neg htag]

/-- When the only candidate fails to authenticate, `unlockVault` throws the
fixed generic message and leaves the disk untouched. -/
theorem unlockVault_generic_of_authFail (pass env : List Nat)
    (tmp plain : Option (List Nat)) (freshSalt persistIv : List Nat)
    (readBack : List Nat → List Nat)
    (hplen : ¬ pass.length < MIN_PASSPHRASE_LEN)
    (hopen : openVaultFromDatabaseEnvelope env pass = .error .authFailure) :
    unlockVault pass ⟨some env, none, tmp, plain⟩ freshSalt persistIv
      readBack = (.error .unlockGeneric, ⟨some env, none, tmp, plain⟩) := by
  simp [unlockVault, hplen, listEncryptedDbCandidates, tryUnlockCandidates,
    hopen, isDecryptAuthError]

/-- C3: on a migrating unlock (legacy plaintext present, no encrypted
candidates) the freshly written envelope is re-read (`readBack`) and
re-authenticated with the provided passphrase.  If that verification
fails, the unlock throws `verifyFailed` and the legacy plaintext file is
still on disk; the plaintext is deleted only in the success case, after
verification. -/
theorem claim_C3_write_verify (pass plain freshSalt persistIv : List Nat)
    (tmp : Option (List Nat)) (readBack : List Nat → List Nat)
    (hplen : ¬ pass.length < MIN_PASSPHRASE_LEN) :
    (∀ e, openVaultFromDatabaseEnvelope
        (readBack (sealDatabaseBytes plain
          (deriveKeysFromPassphrase pass freshSalt DEFAULT_SCRYPT_PARAMS)
          persistIv)) pass = .error e →
      unlockVault pass ⟨none, none, tmp, some plain⟩ freshSalt persistIv
          readBack =
        (.error .verifyFailed,
         ⟨some (sealDatabaseBytes plain
            (deriveKeysFromPassphrase pass freshSalt DEFAULT_SCRYPT_PARAMS)
            persistIv), none, none, some plain⟩)) ∧
    (∀ o, openVaultFromDatabaseEnvelope
        (readBack (sealDatabaseBytes plain
          (deriveKeysFromPassphrase pass freshSalt DEFAULT_SCRYPT_PARAMS)
          persistIv)) pass = .ok o →
      unlockVault pass ⟨none, none, tmp, some plain⟩ freshSalt persistIv
          readBack =
        (.ok ⟨true,
          deriveKeysFromPassphrase pass freshSalt DEFAULT_SCRYPT_PARAMS,
          plain⟩,
         ⟨some (sealDatabaseBytes plain
            (deriveKeysFromPassphrase pass freshSalt DEFAULT_SCRYPT_PARAMS)
            persistIv), none, none, none⟩)) := by
  constructor
  · intro e he
    simp [unlockVault, hplen, listEncryptedDbCandidates, he,
      persistDbResult_eq]
  · intro o ho
    simp [unlockVault, hplen, listEncryptedDbCandidates, ho,
      persistDbResult_eq]

/-- C3 witness: a concrete migrating unlock whose write-verify read-back
returns an empty file; the unlock fails with `verifyFailed` and the
plaintext database is still present. -/
theorem claim_C3_write_verify_witness :
    (∀ e, openVaultFromDatabaseEnvelope
        ((fun _ => []) (sealDatabaseBytes [9, 9]
          (deriveKeysFromPassphrase cPass cSalt DEFAULT_SCRYPT_PARAMS)
          cIv)) cPass = .error e →
      unlockVault cPass ⟨none, none, none, some [9, 9]⟩ cSalt cIv
          (fun _ => []) =
        (.error .verifyFailed,
         ⟨some (sealDatabaseBytes [9, 9]
            (deriveKeysFromPassphrase cPass cSalt DEFAULT_SCRYPT_PARAMS)
            cIv), none, none, some [9, 9]⟩)) ∧
    (∀ o, openVaultFromDatabaseEnvelope
        ((fun _ => []) (sealDatabaseBytes [9, 9]
          (deriveKeysFromPassphrase cPass cSalt DEFAULT_SCRYPT_PARAMS)
          cIv)) cPass = .ok o →
      unlockVault cPass ⟨none, none, none, some [9, 9]⟩ cSalt cIv
          (fun _ => []) =
        (.ok ⟨true, deriveKeysFromPassphrase cPass cSalt
            DEFAULT_SCRYPT_PARAMS, [9, 9]⟩,
         ⟨some (sealDatabaseBytes [9, 9]
            (deriveKeysFromPassphrase cPass cSalt DEFAULT_SCRYPT_PARAMS)
            cIv), none, none, none⟩)) :=
  claim_C3_write_verify cPass [9, 9] cSalt cIv none (fun _ => [])
    (by decide)

/-- C2: crash safety of the atomic persist.  Starting from a disk whose
envelope path holds a valid (openable) envelope, halt the persist sequence
after any number `k ≤ 5` of its steps — in particular after the temp-file
write (k = 1) but before the final rename (k = 4).  Before the final
`.bak` cleanup (k ≤ 4) the previous envelope is still on disk at the
envelope path or at the `.bak` path, and at every halt point the unlock
candidate scan — envelope path first, `.bak` fallback second — opens a
valid envelope with the correct passphrase. -/
theorem claim_C2_crash_safety (pass oldEnv newEnv : List Nat)
    (bak tmp plain : Option (List Nat)) (o o' : OpenedVault)
    (hold : openVaultFromDatabaseEnvelope oldEnv pass = .ok o)
    (hnew : openVaultFromDatabaseEnvelope newEnv pass = .ok o') :
    ∀ k, k ≤ 5 →
      (k ≤ 4 →
        (runSteps ((persistSteps newEnv).take k)
            ⟨some oldEnv, bak, tmp, plain⟩).encFile = some oldEnv ∨
        (runSteps ((persistSteps newEnv).take k)
            ⟨some oldEnv, bak, tmp, plain⟩).bakFile = some oldEnv) ∧
      (tryUnlockCandidates pass (listEncryptedDbCandidates
          (runSteps ((persistSteps newEnv).take k)
            ⟨some oldEnv, bak, tmp, plain⟩))).1.isSome = true := by
  intro k hk
  interval_cases k
  · exact ⟨fun _ => Or.inl rfl,
      by simp [runSteps, persistSteps, listEncryptedDbCandidates,
        tryUnlockCandidates, hold]⟩
  · exact ⟨fun _ => Or.inl rfl,
      by simp [runSteps, persistSteps, listEncryptedDbCandidates,
        tryUnlockCandidates, hold]⟩
  · exact ⟨fun _ => Or.inl rfl,
      by simp [runSteps, persistSteps, listEncryptedDbCandidates,
        tryUnlockCandidates, hold]⟩
  · exact ⟨fun _ => Or.inr rfl,
      by simp [runSteps, persistSteps, listEncryptedDbCandidates,
        tryUnlockCandidates, hold]⟩
  · exact ⟨fun _ => Or.inr rfl,
      by simp [runSteps, persistSteps, listEncryptedDbCandidates,
        tryUnlockCandidates, hnew]⟩
  · exact ⟨fun h4 => absurd h4 (by omega),
      by simp [runSteps, persistSteps, listEncryptedDbCandidates,
        tryUnlockCandidates, hnew]⟩

/-- C2 witness: a concrete persist of a new envelope over an existing one
with a stale `.bak`, halted right after the temp-file write (k = 1): the
previous envelope is still at the envelope path and the unlock scan opens
it. -/
theorem claim_C2_crash_safety_witness :
    ((1 : Nat) ≤ 4 →
      (runSteps ((persistSteps (sealDatabaseBytes [1, 2] cVault cIv)).take 1)
          ⟨some (sealDatabaseBytes [1] cVault cIv), some [0], none,
          none⟩).encFile = some (sealDatabaseBytes [1] cVault cIv) ∨
      (runSteps ((persistSteps (sealDatabaseBytes [1, 2] cVault cIv)).take 1)
          ⟨some (sealDatabaseBytes [1] cVault cIv), some [0], none,
          none⟩).bakFile = some (sealDatabaseBytes [1] cVault cIv)) ∧
    (tryUnlockCandidates cPass (listEncryptedDbCandidates
        (runSteps ((persistSteps (sealDatabaseBytes [1, 2] cVault cIv)).take
          1) ⟨some (sealDatabaseBytes [1] cVault cIv), some [0], none,
          none⟩))).1.isSome = true :=
  claim_C2_crash_safety cPass (sealDatabaseBytes [1] cVault cIv)
    (sealDatabaseBytes [1, 2] cVault cIv) (some [0]) none none _ _
    (dbRoundTrip cPass cSalt cIv [1] DEFAULT_SCRYPT_PARAMS (by decide)
      (by decide) (by decide) (by decide) (by decide))
    (dbRoundTrip cPass cSalt cIv [1, 2] DEFAULT_SCRYPT_PARAMS (by decide)
      (by decide) (by decide) (by decide) (by decide))
    1 (by omega)

/-- C6: a failed unlock throws the identical generic error in all three
cases — wrong passphrase (≥ 12 characters) on an intact envelope, correct
passphrase on an envelope with corrupted ciphertext, and correct
passphrase on an envelope with a corrupted tag — so the caller cannot tell
which occurred. -/
theorem claim_C6_indistinguishable
    (pass wrongPass salt iv data ct' : List Nat) (params : ScryptParams)
    (tag' : Nat) (tmp plain : Option (List Nat))
    (freshSalt persistIv : List Nat) (readBack : List Nat → List Nat)
    (hsalt : salt.length = SALT_LEN) (hiv : iv.length = IV_LEN)
    (hN : params.N < 2 ^ 32) (hr : params.r < 2 ^ 32) (hp : params.p < 2 ^ 32)
    (hplen : ¬ pass.length < MIN_PASSPHRASE_LEN)
    (hwlen : ¬ wrongPass.length < MIN_PASSPHRASE_LEN)
    (hpB : ∀ d ∈ pass, d < encBase) (hwB : ∀ d ∈ wrongPass, d < encBase)
    (hne : nfkcNormalize wrongPass ≠ nfkcNormalize pass)
    (hdataB : ∀ d ∈ data, d < 256)
    (hctB : ∀ d ∈ ct', d < encBase)
    (hctne : ct' ≠ gcmStream
      (deriveKeysFromPassphrase pass salt params).dbKey iv 0 data)
    (htagne : tag' ≠ mkTag
      (deriveKeysFromPassphrase pass salt params).dbKey iv
      (dbAad params salt)
      (gcmStream (deriveKeysFromPassphrase pass salt params).dbKey iv 0
        data)) :
    (unlockVault wrongPass
        ⟨some (sealDatabaseBytes data
          (deriveKeysFromPassphrase pass salt params) iv), none, tmp, plain⟩
        freshSalt persistIv readBack).1 = .error .unlockGeneric ∧
    (unlockVault pass
        ⟨some (dbEnvelope params salt iv
          (mkTag (deriveKeysFromPassphrase pass salt params).dbKey iv
            (dbAad params salt)
            (gcmStream (deriveKeysFromPassphrase pass salt params).dbKey iv
              0 data)) ct'), none, tmp, plain⟩
        freshSalt persistIv readBack).1 = .error .unlockGeneric ∧
    (unlockVault pass
        ⟨some (dbEnvelope params salt iv tag'
          (gcmStream (deriveKeysFromPassphrase pass salt params).dbKey iv 0
            data)), none, tmp, plain⟩
        freshSalt persistIv readBack).1 = .error .unlockGeneric := by
  have hkp : (deriveKeysFromPassphrase pass salt params).kdfParams =
      params := rfl
  have hks : (deriveKeysFromPassphrase pass salt params).kdfSalt = salt := rfl
  have hctBound : ∀ d ∈ gcmStream
      (deriveKeysFromPassphrase pass salt params).dbKey iv 0 data,
      d < encBase := fun d hd =>
    lt_trans (gcmStream_mem_lt _ _ _ _ hdataB d hd) (by norm_num [encBase])
  refine ⟨?_, ?_, ?_⟩
  · have hopen : openVaultFromDatabaseEnvelope
        (sealDatabaseBytes data (deriveKeysFromPassphrase pass salt params)
          iv) wrongPass = .error .authFailure := by
      rw [sealDatabaseBytes_eq, hkp, hks]
      exact openVault_dbEnvelope_authFail params salt iv _ wrongPass _
        hsalt hiv hN hr hp
        (mkTag_ne_of_key_ne _ _ iv iv (dbAad params salt) (dbAad params salt)
          _ _ (dbKey_ne_of_pass_ne pass wrongPass salt params hpB hwB
            (fun h => hne h.symm)))
    rw [unlockVault_generic_of_authFail wrongPass _ tmp plain freshSalt
      persistIv readBack hwlen hopen]
  · have hopen : openVaultFromDatabaseEnvelope
        (dbEnvelope params salt iv
          (mkTag (deriveKeysFromPassphrase pass salt params).dbKey iv
            (dbAad params salt)
            (gcmStream (deriveKeysFromPassphrase pass salt params).dbKey iv
              0 data)) ct') pass = .error .authFailure :=
      openVault_dbEnvelope_authFail params salt iv ct' pass _
        hsalt hiv hN hr hp
        (mkTag_ne_of_ct_ne _ iv (dbAad params salt) _ ct' hctBound hctB
          (fun h => hctne h.symm))
    rw [unlockVault_generic_of_authFail pass _ tmp plain freshSalt
      persistIv readBack hplen hopen]
  · have hopen : openVaultFromDatabaseEnvelope
        (dbEnvelope params salt iv tag'
          (gcmStream (deriveKeysFromPassphrase pass salt params).dbKey iv 0
            data)) pass = .error .authFailure :=
      openVault_dbEnvelope_authFail params salt iv _ pass tag'
        hsalt hiv hN hr hp htagne
    rw [unlockVault_generic_of_authFail pass _ tmp plain freshSalt
      persistIv readBack hplen hopen]

/-- C6 witness: at a concrete envelope, the wrong-passphrase unlock, the
corrupted-ciphertext unlock and the corrupted-tag unlock all return the
identical generic error. -/
theorem claim_C6_indistinguishable_witness :
    (unlockVault cPass2
        ⟨some (sealDatabaseBytes [1, 2, 3] cVault cIv), none, none, none⟩
        cSalt cIv id).1 = .error .unlockGeneric ∧
    (unlockVault cPass
        ⟨some (dbEnvelope DEFAULT_SCRYPT_PARAMS cSalt cIv cTag
          [0, 0, 0, 0]), none, none, none⟩ cSalt cIv id).1 =
      .error .unlockGeneric ∧
    (unlockVault cPass
        ⟨some (dbEnvelope DEFAULT_SCRYPT_PARAMS cSalt cIv 0 cCt), none,
          none, none⟩ cSalt cIv id).1 = .error .unlockGeneric :=
  claim_C6_indistinguishable cPass cPass2 cSalt cIv [1, 2, 3] [0, 0, 0, 0]
    DEFAULT_SCRYPT_PARAMS 0 none none cSalt cIv id (by decide) (by decide)
    (by decide) (by decide) (by decide) (by decide) (by decide) (by decide)
    (by decide) (by decide) (by decide) (by decide) (by decide) (by decide)

/-! ## Claim C5 — attachment envelope layout -/

/-- C5 (counterexample): the codec's `sealFileBytes` does NOT place the
16-byte tag at the end of the envelope after the ciphertext: at a concrete
one-byte plaintext its output differs from the claimed
MAGIC‖VERSION‖NONCE‖CIPHERTEXT‖TAG layout (the tag sits immediately after
the header instead). -/
theorem claim_C5_counterexample :
    sealFileBytes [7] cVault.fileKey cIv ≠
      FILE_MAGIC ++ [FILE_VERSION] ++ cIv ++
        gcmStream cVault.fileKey cIv 0 [7] ++
        tagBytes (mkTag cVault.fileKey cIv fileAad
          (gcmStream cVault.fileKey cIv 0 [7])) := by decide

/-- C5 (amended): the store's streaming `encryptAttachmentFile` produces
exactly MAGIC(8)‖VERSION(1)‖NONCE(12)‖CIPHERTEXT‖TAG(16) with the tag
appended at the end after the ciphertext; the codec's `sealFileBytes`
instead produces MAGIC(8)‖VERSION(1)‖NONCE(12)‖TAG(16)‖CIPHERTEXT, with
the tag immediately after the header. -/
theorem claim_C5_attachment_layout (src pt iv : List Nat) (fileKey : Nat) :
    encryptAttachmentFile src fileKey iv =
      FILE_MAGIC ++ [FILE_VERSION] ++ iv ++
        gcmStream fileKey iv 0 src ++
        tagBytes (mkTag fileKey iv fileAad (gcmStream fileKey iv 0 src)) ∧
    sealFileBytes pt fileKey iv =
      FILE_MAGIC ++ [FILE_VERSION] ++ iv ++
        tagBytes (mkTag fileKey iv fileAad (gcmStream fileKey iv 0 pt)) ++
        gcmStream fileKey iv 0 pt := by
  constructor
  · simp [encryptAttachmentFile, aesGcmEncrypt, fileAad, mkTag,
      List.append_assoc]
  · rw [sealFileBytes_eq]
    simp [fileEnvelope, fileAad, List.append_assoc]

/-- C5 witness: the two layouts at a concrete plaintext and key. -/
theorem claim_C5_attachment_layout_witness :
    encryptAttachmentFile [7] cVault.fileKey cIv =
      FILE_MAGIC ++ [FILE_VERSION] ++ cIv ++
        gcmStream cVault.fileKey cIv 0 [7] ++
        tagBytes (mkTag cVault.fileKey cIv fileAad
          (gcmStream cVault.fileKey cIv 0 [7])) ∧
    sealFileBytes [7] cVault.fileKey cIv =
      FILE_MAGIC ++ [FILE_VERSION] ++ cIv ++
        tagBytes (mkTag cVault.fileKey cIv fileAad
          (gcmStream cVault.fileKey cIv 0 [7])) ++
        gcmStream cVault.fileKey cIv 0 [7] :=
  claim_C5_attachment_layout [7] [7] cIv cVault.fileKey

/-! ## Claim C7 — pre-restore safety snapshot (`main.cjs` lines 674-904) -/

/-- A snapshot directory: manifest reason, the copied database file with
its encryption flag, and the copied attachment tree. -/
structure Snapshot where
  reason : String
  dbFile : List Nat
  encryptedDatabase : Bool
  attachments : List (String × List Nat)
deriving DecidableEq

/-- The application state the snapshot/restore machinery touches: the three
database files, the attachment tree (relative path ↦ bytes), the snapshot
store, and the in-memory database of an unlocked session (`none` when the
vault is locked or the database engine is closed). -/
structure RestoreState where
  dbEnc : Option (List Nat)
  dbBak : Option (List Nat)
  dbPlain : Option (List Nat)
  attachments : List (String × List Nat)
  snapshots : List Snapshot
  dbLive : Option (List Nat)
deriving DecidableEq

/-- The contents of a backup/snapshot source folder. -/
structure BackupDir where
  dbEncFile : Option (List Nat)
  dbPlainFile : Option (List Nat)
  attachments : List (String × List Nat)
deriving DecidableEq

/-- `main.cjs` `resolveBackupDatabaseSource`: prefer the encrypted file,
else the plaintext one; `none` when neither exists.  The `Bool` is
`restoreToEncrypted`. -/
def resolveBackupDatabaseSource (b : BackupDir) :
    Option (List Nat × Bool) :=
  match b.dbEncFile with
  | some bytes => some (bytes, true)
  | none =>
      match b.dbPlainFile with
      | some bytes => some (bytes, false)
      | none => none

/-- `main.cjs` `getDatabaseFileStatus`: the first encrypted candidate
(envelope path, then `.bak`), else the plaintext file; with its
encryption flag. -/
def getDatabaseFileStatus (s : RestoreState) : Option (List Nat × Bool) :=
  match s.dbEnc with
  | some b => some (b, true)
  | none =>
      match s.dbBak with
      | some b => some (b, true)
      | none =>
          match s.dbPlain with
          | some b => some (b, false)
          | none => none

/-- `main.cjs` `createLocalSnapshot`: flush the live database via
`persistDbOrThrow` when the vault is unlocked, then copy the current
database file and the whole attachment tree into a new snapshot; throws
"No database file found." when no database file exists on disk.  The live
session's key material and the persist nonce are the `vault`/`iv`
arguments. -/
def createLocalSnapshot (reason : String) (s : RestoreState) (vault : Vault)
    (iv : List Nat) : Except String (Snapshot × RestoreState) :=
  let s1 := match s.dbLive with
    | some data =>
        { s with dbEnc := some (sealDatabaseBytes data vault iv),
                 dbBak := none }
    | none => s
  match getDatabaseFileStatus s1 with
  | none => .error "No database file found."
  | some (bytes, enc) =>
      let snap : Snapshot := ⟨reason, bytes, enc, s1.attachments⟩
      .ok (snap, { s1 with snapshots := s1.snapshots ++ [snap] })

/-- The outcome `restoreFromBackupFolder` reports to its caller. -/
structure RestoreResult where
  ok : Bool
  preRestoreSnapshot : Option Snapshot
deriving DecidableEq

/-- `main.cjs` `restoreFromBackupFolder`: resolve the backup's database
file (fail closed when absent), TRY to create the `pre-restore:<reason>`
snapshot — a failure is logged and the restore continues —, lock the
vault, delete the current database files, copy the backup's database and
attachment tree into place, and report success with the snapshot id (or
`null` when the snapshot failed).  The backup-meta timestamp file is not
modelled. -/
def restoreFromBackupFolder (backup : BackupDir) (reason : String)
    (s : RestoreState) (vault : Vault) (iv : List Nat) :
    RestoreResult × RestoreState :=
  match resolveBackupDatabaseSource backup with
  | none => (⟨false, none⟩, s)
  | some (srcBytes, restoreToEncrypted) =>
      let step1 :=
        match createLocalSnapshot ("pre-restore:" ++ reason) s vault iv with
        | .ok (snap, s1) => (some snap, s1)
        | .error _ => (none, s)
      let s2 := { step1.2 with dbLive := none }
      let s3 := { s2 with dbEnc := none, dbPlain := none }
      let s4 := if restoreToEncrypted then { s3 with dbEnc := some srcBytes }
        else { s3 with dbPlain := some srcBytes }
      let s5 := { s4 with attachments := backup.attachments }
      (⟨true, step1.1⟩, s5)

/-- What a successful `createLocalSnapshot` guarantees: the snapshot bears
the requested reason, captures the current attachment tree, and is
appended to the snapshot store. -/
theorem createLocalSnapshot_ok (reason : String) (s : RestoreState)
    (vault : Vault) (iv : List Nat) (snap : Snapshot) (s1 : RestoreState)
    (h : createLocalSnapshot reason s vault iv = .ok (snap, s1)) :
    snap.reason = reason ∧ snap.attachments = s.attachments ∧
      s1.snapshots = s.snapshots ++ [snap] := by
  simp only [createLocalSnapshot] at h
  split at h
  · simp at h
  · simp only [Except.ok.injEq, Prod.mk.injEq] at h
    split at h <;>
      · obtain ⟨h1, h2⟩ := h
        subst h1
        subst h2
        exact ⟨rfl, rfl, rfl⟩

/-- C7 (counterexample): with no database file on disk, a locked vault and
a nonempty attachment tree, the pre-restore snapshot creation throws
("No database file found."), yet the restore proceeds: it reports success
with no safety snapshot, deletes the current attachment tree, and the
snapshot store stays empty — current data was deleted although no
`pre-restore:` snapshot was created. -/
theorem claim_C7_counterexample :
    restoreFromBackupFolder ⟨some [9], none, []⟩ "backup"
        ⟨none, none, none, [("p/doc.pdf.enc", [1, 2])], [], none⟩ cVault
        cIv =
      (⟨true, none⟩,
       ⟨some [9], none, none, [], [], none⟩) ∧
    createLocalSnapshot "pre-restore:backup"
        ⟨none, none, none, [("p/doc.pdf.enc", [1, 2])], [], none⟩ cVault
        cIv = .error "No database file found." := by
  constructor
  · rfl
  · rfl

/-- C7 (amended): every restore that reaches the destructive phase first
ATTEMPTS the `pre-restore:<reason>` safety snapshot.  When snapshot
creation succeeds, the snapshot is created before the first destructive
step — it captures the pre-restore database file and the pre-restore
attachment tree — and is reported to the caller.  But when snapshot
creation fails (no database file found), the restore logs the error and
still proceeds destructively, reporting success with a null snapshot id;
current data can then be deleted without a safety snapshot. -/
theorem claim_C7_pre_restore (backup : BackupDir) (reason : String)
    (s : RestoreState) (vault : Vault) (iv src : List Nat) (enc : Bool)
    (hsrc : resolveBackupDatabaseSource backup = some (src, enc)) :
    (∀ snap s1,
      createLocalSnapshot ("pre-restore:" ++ reason) s vault iv =
        .ok (snap, s1) →
      (restoreFromBackupFolder backup reason s vault iv).1 =
        ⟨true, some snap⟩ ∧
      snap.reason = "pre-restore:" ++ reason ∧
      snap.attachments = s.attachments ∧
      (restoreFromBackupFolder backup reason s vault iv).2.snapshots =
        s.snapshots ++ [snap]) ∧
    (∀ e,
      createLocalSnapshot ("pre-restore:" ++ reason) s vault iv =
        .error e →
      (restoreFromBackupFolder backup reason s vault iv).1 = ⟨true, none⟩ ∧
      (restoreFromBackupFolder backup reason s vault iv).2.snapshots =
        s.snapshots ∧
      (restoreFromBackupFolder backup reason s vault iv).2.attachments =
        backup.attachments) := by
  constructor
  · intro snap s1 hsnap
    obtain ⟨hr, ha, hs⟩ :=
      createLocalSnapshot_ok _ s vault iv snap s1 hsnap
    refine ⟨?_, hr, ha, ?_⟩ <;>
      (simp only [restoreFromBackupFolder, hsrc, hsnap]
       try cases enc <;> simp [hs])
  · intro e hsnap
    refine ⟨?_, ?_, ?_⟩ <;>
      (simp only [restoreFromBackupFolder, hsrc, hsnap]
       try cases enc <;> simp)

/-- A concrete pre-restore state for the C7 witness: an encrypted database
file, one attachment, an empty snapshot store, locked vault. -/
def c7State : RestoreState := ⟨some [3], none, none, [("x", [5])], [], none⟩

/-- A concrete valid backup folder for the C7 witness. -/
def c7Backup : BackupDir := ⟨some [9], none, []⟩

/-- C7 witness: the pre-restore guarantee at a concrete state and backup
folder. -/
theorem claim_C7_pre_restore_witness :
    (∀ snap s1,
      createLocalSnapshot ("pre-restore:" ++ "backup") c7State cVault cIv =
        .ok (snap, s1) →
      (restoreFromBackupFolder c7Backup "backup" c7State cVault cIv).1 =
        ⟨true, some snap⟩ ∧
      snap.reason = "pre-restore:" ++ "backup" ∧
      snap.attachments = c7State.attachments ∧
      (restoreFromBackupFolder c7Backup "backup" c7State cVault
          cIv).2.snapshots = c7State.snapshots ++ [snap]) ∧
    (∀ e,
      createLocalSnapshot ("pre-restore:" ++ "backup") c7State cVault cIv =
        .error e →
      (restoreFromBackupFolder c7Backup "backup" c7State cVault cIv).1 =
        ⟨true, none⟩ ∧
      (restoreFromBackupFolder c7Backup "backup" c7State cVault
          cIv).2.snapshots = c7State.snapshots ∧
      (restoreFromBackupFolder c7Backup "backup" c7State cVault
          cIv).2.attachments = c7Backup.attachments) :=
  claim_C7_pre_restore c7Backup "backup" c7State cVault cIv [9] true rfl

/-! ## Claim C8 — IO failure during the persist of a mutating handler -/

/-- `main.cjs` `persistDbInternal` with an injected disk fault:
`diskFails` models `fs.writeFileSync` throwing (disk full, permission
denied); on success the atomic replace completes. -/
def persistDbInternalE (diskFails : Bool) (env : List Nat) (d : VaultDisk) :
    Except Unit VaultDisk :=
  if diskFails then .error () else .ok (persistDbResult env d)

/-- `main.cjs` `persistDb` (lines 472-478): try/catch around
`persistDbInternal` that only logs the failure — the caller never sees
it. -/
def persistDb (diskFails : Bool) (env : List Nat) (d : VaultDisk) :
    VaultDisk :=
  match persistDbInternalE diskFails env d with
  | .ok d2 => d2
  | .error _ => d

/-- `main.cjs` `persistDbOrThrow` (lines 480-482): the propagating
variant, used by `unlockVault`, `createLocalSnapshot`,
`migrateAttachmentsToEncryptedIfNeeded` and `backup:export`. -/
def persistDbOrThrow (diskFails : Bool) (env : List Nat) (d : VaultDisk) :
    Except Unit VaultDisk :=
  persistDbInternalE diskFails env d

/-- Modelled from the spec: the byte serialization `db.export()` of the
in-memory database rows; used opaquely by the handler model. -/
def dbExport (rows : List (List Nat)) : List Nat :=
  rows.foldr (fun r acc => r ++ 256 :: acc) []

/-- `main.cjs` `notes:create` handler (lines 1643-1664), reduced to its
persist-relevant skeleton: `assertUnlocked`, insert the row, then call the
swallowing `persistDb` and return the freshly inserted row. -/
def notesCreate (diskFails locked : Bool) (vault : Vault) (iv note : List Nat)
    (rows : List (List Nat)) (disk : VaultDisk) :
    Except String (List (List Nat) × VaultDisk × List Nat) :=
  if locked then .error "Vault locked."
  else
    let rows2 := rows ++ [note]
    let env := sealDatabaseBytes (dbExport rows2) vault iv
    let disk2 := persistDb diskFails env disk
    .ok (rows2, disk2, note)

/-- C8 (counterexample): with a failing disk write, the `notes:create`
handler still reports success with the created row, while the on-disk
envelope was left unwritten (the stale envelope `[1]` is still there). -/
theorem claim_C8_counterexample :
    notesCreate true false cVault cIv [7] [] ⟨some [1], none, none, none⟩ =
      .ok ([[7]], ⟨some [1], none, none, none⟩, [7]) ∧
    some [1] ≠
      some (sealDatabaseBytes (dbExport [[7]]) cVault cIv) := by
  exact ⟨rfl, by decide⟩

/-- C8 (amended): when the disk write of the database envelope fails
during the persist step of a mutating handler such as `notes:create`, the
failure is NOT propagated — `persistDb` catches and logs it and the
handler reports success with the new row while the on-disk envelope is
left unwritten; only the `persistDbOrThrow` path (used by unlock,
snapshot creation and backup export) propagates the IO failure.  When the
write succeeds, the handler persists the resealed envelope. -/
theorem claim_C8_io_swallowed (vault : Vault) (iv note : List Nat)
    (rows : List (List Nat)) (disk : VaultDisk) :
    notesCreate true false vault iv note rows disk =
      .ok (rows ++ [note], disk, note) ∧
    persistDbOrThrow true
      (sealDatabaseBytes (dbExport (rows ++ [note])) vault iv) disk =
      .error () ∧
    notesCreate false false vault iv note rows disk =
      .ok (rows ++ [note],
        persistDbResult
          (sealDatabaseBytes (dbExport (rows ++ [note])) vault iv) disk,
        note) := by
  exact ⟨rfl, rfl, rfl⟩

/-! ## Claim C10 — the `attachments:add` filter -/

/-- What `fs.statSync` reports about a source path. -/
structure FileInfo where
  isFile : Bool
  size : Nat
deriving DecidableEq

/-- A row of the `attachments` table, reduced to the fields the claim
speaks about. -/
structure AttachmentRow where
  sourcePath : String
  storedFileName : String
  sizeBytes : Nat
deriving DecidableEq

/-- Segment-wise path prefix test. -/
def pathStarts : List String → List String → Bool
  | [], _ => true
  | _ :: _, [] => false
  | a :: as, b :: bs => a = b && pathStarts as bs

/-- `main.cjs` `isContainedPath` over segment lists: the base is the
candidate or a proper ancestor of it. -/
def isContainedPath (candidate base : List String) : Bool :=
  pathStarts base candidate

/-- The 1 GiB limit of `attachments:add` (`main.cjs` line 1878). -/
def MAX_ATTACHMENT_SIZE : Nat := 1024 * 1024 * 1024

/-- One iteration of the `attachments:add` loop (`main.cjs` lines
1865-1916): silently skip the path when it is empty, does not exist, is
not a regular file, exceeds 1 GiB, or escapes the project directory;
otherwise encrypt the file to `stored` and insert a row recording the
source's size. -/
def addOne (fsys : String → Option FileInfo) (dir : List String)
    (stored : String) (p : String) : Option AttachmentRow :=
  if p = "" then none
  else
    match fsys p with
    | none => none
    | some st =>
        if st.isFile = false then none
        else if st.size > MAX_ATTACHMENT_SIZE then none
        else if isContainedPath (dir ++ [stored]) dir = false then none
        else some ⟨p, stored, st.size⟩

/-- The random stored file name, modelled by the loop index. -/
def storedNameFor (i : Nat) : String := toString i ++ ".enc"

/-- The `for (const sourcePath of filePaths)` loop. -/
def addLoop (fsys : String → Option FileInfo) (dir : List String) :
    Nat → List String → List AttachmentRow
  | _, [] => []
  | i, p :: rest =>
      match addOne fsys dir (storedNameFor i) p with
      | some row => row :: addLoop fsys dir (i + 1) rest
      | none => addLoop fsys dir (i + 1) rest

/-- The `attachments:add` handler: an empty or over-100-entry path list
yields no insertions; otherwise the per-file loop runs.  Each returned
row corresponds to exactly one written envelope; skipped paths write
nothing and raise no error. -/
def attachmentsAdd (fsys : String → Option FileInfo) (paths : List String)
    (dir : List String) : List AttachmentRow :=
  if paths.isEmpty ∨ paths.length > 100 then []
  else addLoop fsys dir 0 paths

/-- What `addOne = some row` implies: the path passed every check. -/
theorem addOne_some (fsys : String → Option FileInfo) (dir : List String)
    (stored p : String) (r : AttachmentRow)
    (h : addOne fsys dir stored p = some r) :
    r.sourcePath = p ∧ ∃ st, fsys p = some st ∧ st.isFile = true ∧
      st.size ≤ MAX_ATTACHMENT_SIZE ∧ r.sizeBytes = st.size := by
  unfold addOne at h
  by_cases h1 : p = ""
  · rw [if_pos h1] at h
    exact absurd h (by simp)
  · rw [if_neg h1] at h
    cases hf : fsys p with
    | none =>
        simp only [hf] at h
        exact absurd h (by simp)
    | some st =>
        simp only [hf] at h
        by_cases h2 : st.isFile = false
        · rw [if_pos h2] at h
          exact absurd h (by simp)
        · rw [if_neg h2] at h
          by_cases h3 : st.size > MAX_ATTACHMENT_SIZE
          · rw [if_pos h3] at h
            exact absurd h (by simp)
          · rw [if_neg h3] at h
            by_cases h4 : isContainedPath (dir ++ [stored]) dir = false
            · rw [if_pos h4] at h
              exact absurd h (by simp)
            · rw [if_neg h4] at h
              simp only [Option.some.injEq] at h
              subst h
              exact ⟨rfl, st, rfl, by simpa using h2, by omega, rfl⟩

/-- Rows produced by the loop all come from accepted paths. -/
theorem addLoop_mem (fsys : String → Option FileInfo) (dir : List String)
    (i : Nat) (ps : List String) (row : AttachmentRow)
    (h : row ∈ addLoop fsys dir i ps) :
    ∃ st, fsys row.sourcePath = some st ∧ st.isFile = true ∧
      st.size ≤ MAX_ATTACHMENT_SIZE ∧ row.sizeBytes = st.size := by
  induction ps generalizing i with
  | nil => simp [addLoop] at h
  | cons p rest ih =>
      simp only [addLoop] at h
      cases ha : addOne fsys dir (storedNameFor i) p with
      | none =>
          rw [ha] at h
          exact ih (i + 1) h
      | some r =>
          rw [ha] at h
          rcases List.mem_cons.mp h with h1 | h1
          · subst h1
            obtain ⟨hsp, st, hst, hfile, hsz, hsb⟩ :=
              addOne_some fsys dir (storedNameFor i) p row ha
            exact ⟨st, by rw [hsp]; exact hst, hfile, hsz, hsb⟩
          · exact ih (i + 1) h1

/-- C10: every row returned by `attachments:add` comes from a source path
that exists, is a regular file and is at most 1 GiB, recording exactly its
size; and any path that is missing, not a regular file, or over 1 GiB is
silently skipped — no row is inserted for it and no error is raised. -/
theorem claim_C10_attachment_filter (fsys : String → Option FileInfo)
    (paths dir : List String) :
    (∀ row ∈ attachmentsAdd fsys paths dir,
      ∃ st, fsys row.sourcePath = some st ∧ st.isFile = true ∧
        st.size ≤ MAX_ATTACHMENT_SIZE ∧ row.sizeBytes = st.size) ∧
    (∀ p, (fsys p = none ∨
        (∀ st, fsys p = some st →
          st.isFile = false ∨ st.size > MAX_ATTACHMENT_SIZE)) →
      ∀ row ∈ attachmentsAdd fsys paths dir, row.sourcePath ≠ p) := by
  have hmem : ∀ row ∈ attachmentsAdd fsys paths dir,
      ∃ st, fsys row.sourcePath = some st ∧ st.isFile = true ∧
        st.size ≤ MAX_ATTACHMENT_SIZE ∧ row.sizeBytes = st.size := by
    intro row h
    unfold attachmentsAdd at h
    split_ifs at h with h1
    · simp at h
    · exact addLoop_mem fsys dir 0 paths row h
  refine ⟨hmem, ?_⟩
  intro p hrej row hrow heq
  obtain ⟨st, hst, hfile, hsize, _⟩ := hmem row hrow
  rw [heq] at hst
  rcases hrej with h1 | h1
  · rw [h1] at hst
    exact Option.noConfusion hst
  · rcases h1 st hst with h2 | h2
    · rw [hfile] at h2
      exact Bool.noConfusion h2
    · omega

/-- A concrete filesystem for the C10 witness. -/
def c10Fs : String → Option FileInfo := fun p =>
  if p = "good.txt" then some ⟨true, 10⟩
  else if p = "big.bin" then some ⟨true, 1024 * 1024 * 1024 + 1⟩
  else if p = "somedir" then some ⟨false, 0⟩
  else none

/-- The concrete path list for the C10 witness: one accepted file, one
empty path, one missing file, one oversized file, one directory. -/
def c10Paths : List String :=
  ["good.txt", "", "missing.txt", "big.bin", "somedir"]

/-- C10 witness: at the concrete filesystem, the filter guarantee holds
and the handler returns exactly the one accepted row. -/
theorem claim_C10_attachment_filter_witness :
    ((∀ row ∈ attachmentsAdd c10Fs c10Paths ["attachments", "p1"],
      ∃ st, c10Fs row.sourcePath = some st ∧ st.isFile = true ∧
        st.size ≤ MAX_ATTACHMENT_SIZE ∧ row.sizeBytes = st.size) ∧
    (∀ p, (c10Fs p = none ∨
        (∀ st, c10Fs p = some st →
          st.isFile = false ∨ st.size > MAX_ATTACHMENT_SIZE)) →
      ∀ row ∈ attachmentsAdd c10Fs c10Paths ["attachments", "p1"],
        row.sourcePath ≠ p)) ∧
    attachmentsAdd c10Fs c10Paths ["attachments", "p1"] =
      [⟨"good.txt", "0.enc", 10⟩] :=
  ⟨claim_C10_attachment_filter c10Fs c10Paths ["attachments", "p1"],
   by decide⟩

/-! ## Claim C9 — passphrase normalization -/

/-- C9 (counterexample): the normalization applied before derivation is not
canonical composition (NFC): on U+FB01 (the fi ligature, NFC-invariant) the
source's NFKC maps it to "fi", so `normalizePassphrase` disagrees with NFC
there, and a passphrase containing ﬁ collides with the one containing "fi"
even though the two are not canonically equivalent. -/
theorem claim_C9_counterexample :
    normalizePassphrase [0xFB01] ≠ nfcNormalize [0xFB01] ∧
    deriveKeysFromPassphrase [0xFB01] cSalt DEFAULT_SCRYPT_PARAMS =
      deriveKeysFromPassphrase [0x66, 0x69] cSalt DEFAULT_SCRYPT_PARAMS :=
  ⟨by decide, rfl⟩

/-- C9 (amended): `deriveKeysFromPassphrase` normalizes the passphrase with
NFKC (compatibility compose), not NFC; canonically equivalent passphrases
(equal NFC forms) still derive identical key material for the same salt and
parameters, but the normalization applied is compatibility composition,
which additionally identifies compatibility equivalents. -/
theorem claim_C9_normalization (p₁ p₂ salt : List Nat) (params : ScryptParams)
    (h : nfcNormalize p₁ = nfcNormalize p₂) :
    deriveKeysFromPassphrase p₁ salt params =
      deriveKeysFromPassphrase p₂ salt params ∧
    normalizePassphrase = nfkcNormalize := by
  have hn : normalizePassphrase p₁ = normalizePassphrase p₂ := by
    unfold normalizePassphrase
    rw [← nfkc_nfc p₁, h, nfkc_nfc p₂]
  exact ⟨by simp [deriveKeysFromPassphrase, hn], rfl⟩

/-- C9 witness: U+0065 U+0301 (e + combining acute) and U+00E9 (é) are
canonically equivalent and derive identical key material. -/
theorem claim_C9_normalization_witness :
    deriveKeysFromPassphrase [0x65, 0x301] cSalt DEFAULT_SCRYPT_PARAMS =
      deriveKeysFromPassphrase [0xE9] cSalt DEFAULT_SCRYPT_PARAMS ∧
    normalizePassphrase = nfkcNormalize :=
  claim_C9_normalization [0x65, 0x301] [0xE9] cSalt DEFAULT_SCRYPT_PARAMS
    (by decide)

end EdiscoNotes
